import Mathlib

/-!
Verification of the Targeted Revision Engine of the Dekha-Jayega repository
(`OrchestratorAgent/orchestrator.py`).  The Python orchestrator mutates a
dictionary-shaped session state; here the state is an explicit record and every
patch step is a pure function on it.  The external LLM ("Proposer") calls are
modelled as inputs: each `update_component` run receives the structured change
object that the Proposer returned, and the theorems quantify over it.

String primitives reimplement the exact Python semantics used by the source
(`str.replace` replaces all non-overlapping occurrences left to right,
`in` is substring containment, `str.split()` splits on whitespace runs and
drops empties, `str.lower()` lower-cases ASCII letters) as structurally
recursive functions on `List Char`, so that the kernel can evaluate them.
-/

/-- ASCII lower-casing of one character, as Python `str.lower` behaves on the
ASCII names used by the orchestrator. -/
def lowerChar (c : Char) : Char :=
  if 'A' ≤ c ∧ c ≤ 'Z' then Char.ofNat (c.toNat + 32) else c

/-- Python `s.lower()` (ASCII). -/
def pyLower (s : String) : String := ⟨s.data.map lowerChar⟩

/-- Is `pat` a prefix of the second list (case-sensitive)? -/
def isPrefixCh : List Char → List Char → Bool
  | [], _ => true
  | _ :: _, [] => false
  | p :: ps, c :: cs => p = c && isPrefixCh ps cs

/-- Case-sensitive substring containment: does the list contain `pat`? -/
def containsSub (pat : List Char) : List Char → Bool
  | [] => isPrefixCh pat []
  | c :: rest => isPrefixCh pat (c :: rest) || containsSub pat rest

/-- Python `needle in hay` substring test. -/
def pyContains (hay needle : String) : Bool := containsSub needle.data hay.data

/-- Fuel-indexed engine of `str.replace`: replaces every non-overlapping
occurrence of `pat` left to right.  The fuel starts at the length of the
string and decreases by one while at least one character is consumed per
step, so the `0` branch is never the effective result.  An empty `pat`
leaves the string unchanged; the orchestrator only ever calls replace with a
non-empty old name (the rename event is created under an `old_name` truthiness
guard), so that Python edge is unreachable. -/
def replaceAllAux (pat repl : List Char) : Nat → List Char → List Char
  | _, [] => []
  | 0, s => s
  | fuel + 1, c :: rest =>
    if pat ≠ [] ∧ isPrefixCh pat (c :: rest) then
      repl ++ replaceAllAux pat repl fuel (rest.drop (pat.length - 1))
    else
      c :: replaceAllAux pat repl fuel rest

/-- Python `s.replace(old, new)` (all occurrences). -/
def pyReplace (s old new : String) : String :=
  ⟨replaceAllAux old.data new.data s.data.length s.data⟩

/-- Python whitespace test used by `str.split()`. -/
def pyIsSpace (c : Char) : Bool :=
  c = ' ' || c = '\t' || c = '\n' || c = '\r' || c = Char.ofNat 11 || c = Char.ofNat 12

/-- Engine of `str.split()`: accumulates the current token (reversed). -/
def splitWsAux : List Char → List Char → List (List Char)
  | [], acc => if acc.isEmpty then [] else [acc.reverse]
  | c :: rest, acc =>
    if pyIsSpace c then
      if acc.isEmpty then splitWsAux rest [] else acc.reverse :: splitWsAux rest []
    else splitWsAux rest (c :: acc)

/-- Python `s.split()` — split on whitespace runs, dropping empty strings. -/
def pySplitWs (s : String) : List String :=
  (splitWsAux s.data []).map (fun l => ⟨l⟩)

/-- Case-insensitive prefix test (ASCII), as `re.IGNORECASE` matching does. -/
def isPrefixCI : List Char → List Char → Bool
  | [], _ => true
  | _ :: _, [] => false
  | p :: ps, c :: cs => lowerChar p = lowerChar c && isPrefixCI ps cs

/-- Fuel-indexed engine of `re.sub` with `re.IGNORECASE` on an escaped literal
pattern: replaces every case-insensitive occurrence. -/
def replaceAllCIAux (pat repl : List Char) : Nat → List Char → List Char
  | _, [] => []
  | 0, s => s
  | fuel + 1, c :: rest =>
    if pat ≠ [] ∧ isPrefixCI pat (c :: rest) then
      repl ++ replaceAllCIAux pat repl fuel (rest.drop (pat.length - 1))
    else
      c :: replaceAllCIAux pat repl fuel rest

/-- `re.compile(re.escape(old), re.IGNORECASE).sub(new, s)`. -/
def pyReplaceCI (s old new : String) : String :=
  ⟨replaceAllCIAux old.data new.data s.data.length s.data⟩

/-- One dialogue attribution record of the internal state
(`{'character_name': …, 'scene_number': …, 'line': …}`). -/
structure DialogueLine where
  character_name : String
  scene_number : Int
  line : String
deriving DecidableEq, Repr

/-- One scene record in the orchestrator's internal format (the keys built at
`update_state_from_user_view`, which are also the fields of the pydantic
`Scene` payload the Proposer returns). -/
structure Scene where
  scene_number : Int
  environmental_context : String
  subject_action : String
  shot_type : String
  camera_angle : String
  camera_movement : String
  camera_perspective : String
  dialogue_lines : List DialogueLine
deriving DecidableEq, Repr

/-- Modelled from the spec: the pydantic `Character` / `Location` schemas live
in `SagaAgent.models.characters` / `SagaAgent.models.locations`, which are not
in the tree; the orchestrator reads only the identity field `name` of an
entity and otherwise moves the whole `model_dump()` around.  Per the spec's
data model (ordered collections unique by case-insensitive `name`), an entity
is its `name` plus the remaining dumped fields, kept opaque in `rest`. -/
structure Entity where
  name : String
  rest : String
deriving DecidableEq, Repr

/-- Modelled from the spec: the pydantic `Dialogue` payload
(`SagaAgent.models.dialogue`, not in the tree); the orchestrator reads exactly
`character_name` and `line` from it. -/
structure Dialogue where
  character_name : String
  line : String
deriving DecidableEq, Repr

/-- The orchestrator's session state (`self.state`), restricted to the keys
the Targeted Revision Engine reads or writes.  `none` models an absent
dictionary key. -/
structure OrchState where
  title : Option String
  genre : Option String
  tone : Option String
  draft : Option String
  characters : Option (List Entity)
  locations : Option (List Entity)
  dialogue_scenes : Option (List DialogueLine)
  scenes : Option (List Scene)
  visual_lookbook : Option String
  number_of_scenes : Option Int
  draft_feedback : Option String
  characters_feedback : Option String
  dialogue_feedback : Option String
  locations_feedback : Option String
  visual_lookbook_feedback : Option String
  scenes_feedback : Option String
  allow_scene_increase : Option Bool
deriving DecidableEq, Repr

/-- One dialogue attribution update of `_propagate_character_name_change`:
exact, case-sensitive match on the character name. -/
def renameDialogueLine (old new : String) (d : DialogueLine) : DialogueLine :=
  if d.character_name = old then { d with character_name := new } else d

/-- `name.split()[0] if ' ' in name else name` from
`_propagate_character_name_change`.  (Python raises `IndexError` when the name
consists solely of whitespace; the theorems below assume a name with a
non-whitespace character, where `headD` agrees with `[0]`.) -/
def pyFirstToken (name : String) : String :=
  if pyContains name " " then (pySplitWs name).headD name else name

/-- The free-text rewrite applied by `_propagate_character_name_change` to a
scene's `subject_action`, a scene's `environmental_context`, and the `draft`:
replace the full old name if it occurs (all occurrences, Python `str.replace`),
else replace the old first name (all occurrences) when it differs from the
full name and occurs; at most one branch runs. -/
def charProseRewrite (old new : String) (s : String) : String :=
  let old_first := pyFirstToken old
  let new_first := pyFirstToken new
  if pyContains s old then pyReplace s old new
  else if old_first ≠ old ∧ pyContains s old_first then pyReplace s old_first new_first
  else s

/-- Per-scene body of the scene loop in `_propagate_character_name_change`:
rename embedded dialogue attributions, then rewrite `subject_action` and
`environmental_context` (each guarded on being non-empty, written back only
when changed, exactly as the source does). -/
def propagateSceneUpdate (old new : String) (sc : Scene) : Scene :=
  let sc1 :=
    if sc.dialogue_lines ≠ [] then
      { sc with dialogue_lines := sc.dialogue_lines.map (renameDialogueLine old new) }
    else sc
  let sc2 :=
    if sc1.subject_action ≠ "" then
      let ua := charProseRewrite old new sc1.subject_action
      if ua ≠ sc1.subject_action then { sc1 with subject_action := ua } else sc1
    else sc1
  if sc2.environmental_context ≠ "" then
    let uc := charProseRewrite old new sc2.environmental_context
    if uc ≠ sc2.environmental_context then { sc2 with environmental_context := uc } else sc2
  else sc2

/-- First block of `_propagate_character_name_change` (orchestrator.py
256–264): rename matching attributions in `dialogue_scenes` (guarded on the
key being present and the list non-empty, as the source is). -/
def propagateCharDialogueStage (old new : String) (st : OrchState) : OrchState :=
  match st.dialogue_scenes with
  | some ds =>
    if ds ≠ [] then { st with dialogue_scenes := some (ds.map (renameDialogueLine old new)) }
    else st
  | none => st

/-- Second block of `_propagate_character_name_change` (orchestrator.py
266–318): the per-scene loop. -/
def propagateCharScenesStage (old new : String) (st : OrchState) : OrchState :=
  match st.scenes with
  | some ss =>
    if ss ≠ [] then { st with scenes := some (ss.map (propagateSceneUpdate old new)) }
    else st
  | none => st

/-- Third block of `_propagate_character_name_change` (orchestrator.py
320–337): the draft rewrite, written back only when changed. -/
def propagateCharDraftStage (old new : String) (st : OrchState) : OrchState :=
  match st.draft with
  | some d =>
    if d ≠ "" then
      let ud := charProseRewrite old new d
      if ud ≠ d then { st with draft := some ud } else st
    else st
  | none => st

/-- `OrchestratorAgent._propagate_character_name_change` (orchestrator.py
245–342): updates `dialogue_scenes`, then each scene, then the draft. -/
def propagateCharacterNameChange (old new : String) (st : OrchState) : OrchState :=
  propagateCharDraftStage old new
    (propagateCharScenesStage old new (propagateCharDialogueStage old new st))

/-- Per-scene body of `_propagate_location_name_change`: case-insensitive,
all-occurrences substitution in `environmental_context`. -/
def propagateLocationScene (old new : String) (sc : Scene) : Scene :=
  if sc.environmental_context ≠ "" then
    if pyContains (pyLower sc.environmental_context) (pyLower old) then
      let uc := pyReplaceCI sc.environmental_context old new
      if uc ≠ sc.environmental_context then { sc with environmental_context := uc } else sc
    else sc
  else sc

/-- `OrchestratorAgent._propagate_location_name_change` (orchestrator.py
344–399): case-insensitive all-occurrences substitution in each scene's
`environmental_context` and in the draft. -/
def propagateLocationNameChange (old new : String) (st : OrchState) : OrchState :=
  let st1 :=
    match st.scenes with
    | some ss =>
      if ss ≠ [] then { st with scenes := some (ss.map (propagateLocationScene old new)) }
      else st
    | none => st
  match st1.draft with
  | some d =>
    if d ≠ "" then
      if pyContains (pyLower d) (pyLower old) then
        let ud := pyReplaceCI d old new
        if ud ≠ d then { st1 with draft := some ud } else st1
      else st1
    else st1
  | none => st1

/-- Action literal of `LocationChange` / `CharacterChange`. -/
inductive EntityAction where
  | add
  | modify
  | remove
deriving DecidableEq, Repr

/-- The structured output the Proposer returns for a location or character
revision (`LocationChange` / `CharacterChange` in the source: same shape,
`new_entity` standing for `new_location` / `new_character`). -/
structure EntityChange where
  action : EntityAction
  target_name : Option String
  new_entity : Option Entity
deriving DecidableEq, Repr

/-- `DialogueIdentification`: a 1-based index or a character name. -/
structure DialogueIdentification where
  target_index : Option Int
  target_character : Option String
deriving DecidableEq, Repr

/-- Action literal of `DialogueChange`. -/
inductive DialogueAction where
  | add
  | modify
  | remove
deriving DecidableEq, Repr

/-- The structured output the Proposer returns for a dialogue revision. -/
structure DialogueChange where
  action : DialogueAction
  identification : Option DialogueIdentification
  new_dialogue : Option Dialogue
  modified_line : Option String
  scene_number : Option Int
deriving DecidableEq, Repr

/-- Action literal of `SceneChange`. -/
inductive SceneAction where
  | add
  | modify
  | remove
  | insert_between
deriving DecidableEq, Repr

/-- The structured output the Proposer returns for a scene revision
(`num_scenes_to_insert` is computed but unused by the source, the inserted
count is the length of `new_scenes`). -/
structure SceneChange where
  action : SceneAction
  target_scene_number : Option Int
  insert_after_scene : Option Int
  num_scenes_to_insert : Option Int
  new_scenes : Option (List Scene)
  new_scene : Option Scene
deriving DecidableEq, Repr

/-- The `modify` loop of `_update_specific_location` / `_update_specific_character`:
replace the first entity whose name matches the target case-insensitively by
the whole payload; `some` carries the updated list and the rename event
(created under the source's `old_name and old_name != new_name` guard);
`none` means no match. -/
def entityModifyLoop (target : String) (payload : Entity) :
    List Entity → Option (List Entity × Option (String × String))
  | [] => none
  | e :: rest =>
    if pyLower e.name = pyLower target then
      some (payload :: rest,
        if e.name ≠ "" ∧ e.name ≠ payload.name then some (e.name, payload.name) else none)
    else (entityModifyLoop target payload rest).map (fun r => (e :: r.1, r.2))

/-- The `remove` loop: delete the first case-insensitive name match
(`list.pop(i)` at the first hit); `none` means no match. -/
def entityRemoveLoop (target : String) : List Entity → Option (List Entity)
  | [] => none
  | e :: rest =>
    if pyLower e.name = pyLower target then some rest
    else (entityRemoveLoop target rest).map (fun r => e :: r)

/-- Result of one collection patch: the written-back collection, the rename
event (entities only), and whether a change was applied (`false` is the
source's `[WARNING] … keeping original` path). -/
structure PatchOutcome (α : Type) where
  collection : α
  renameEvent : Option (String × String)
  applied : Bool
deriving DecidableEq, Repr

/-- The programmatic apply step of `_update_specific_location` (orchestrator.py
462–524) and `_update_specific_character` (590–648), acting on the current
collection.  Python truthiness of `change.target_name` makes an empty-string
target behave as a missing one. -/
def applyEntityChange (ec : EntityChange) (current : List Entity) :
    PatchOutcome (List Entity) :=
  match ec.action with
  | .add =>
    match ec.new_entity with
    | some p => ⟨current ++ [p], none, true⟩
    | none => ⟨current, none, false⟩
  | .modify =>
    match ec.target_name, ec.new_entity with
    | some t, some p =>
      if t = "" then ⟨current, none, false⟩
      else
        match entityModifyLoop t p current with
        | some r => ⟨r.1, r.2, true⟩
        | none => ⟨current, none, false⟩
    | _, _ => ⟨current, none, false⟩
  | .remove =>
    match ec.target_name with
    | some t =>
      if t = "" then ⟨current, none, false⟩
      else
        match entityRemoveLoop t current with
        | some r => ⟨r, none, true⟩
        | none => ⟨current, none, false⟩
    | none => ⟨current, none, false⟩

/-- Set the `line` of the dialogue record at 0-based index `j`
(`updated_dialogue[idx]['line'] = …`). -/
def setLineAt (ml : String) : Nat → List DialogueLine → List DialogueLine
  | _, [] => []
  | 0, d :: rest => { d with line := ml } :: rest
  | j + 1, d :: rest => d :: setLineAt ml j rest

/-- Set the `line` of the first record whose character name matches
case-insensitively; `none` means no match. -/
def setLineFirstChar (c ml : String) : List DialogueLine → Option (List DialogueLine)
  | [] => none
  | d :: rest =>
    if pyLower d.character_name = pyLower c then some ({ d with line := ml } :: rest)
    else (setLineFirstChar c ml rest).map (fun r => d :: r)

/-- Remove the first record whose character name matches case-insensitively;
`none` means no match. -/
def removeFirstChar (c : String) : List DialogueLine → Option (List DialogueLine)
  | [] => none
  | d :: rest =>
    if pyLower d.character_name = pyLower c then some rest
    else (removeFirstChar c rest).map (fun r => d :: r)

/-- The character-name branch shared by dialogue `modify` (set the line of the
first case-insensitive match) — Python truthiness: an empty target character
is treated as absent. -/
def dialogueModifyByChar (id : DialogueIdentification) (ml : String)
    (current : List DialogueLine) : PatchOutcome (List DialogueLine) :=
  match id.target_character with
  | some c =>
    if c = "" then ⟨current, none, false⟩
    else
      match setLineFirstChar c ml current with
      | some r => ⟨r, none, true⟩
      | none => ⟨current, none, false⟩
  | none => ⟨current, none, false⟩

/-- The character-name branch of dialogue `remove`. -/
def dialogueRemoveByChar (id : DialogueIdentification)
    (current : List DialogueLine) : PatchOutcome (List DialogueLine) :=
  match id.target_character with
  | some c =>
    if c = "" then ⟨current, none, false⟩
    else
      match removeFirstChar c current with
      | some r => ⟨r, none, true⟩
      | none => ⟨current, none, false⟩
  | none => ⟨current, none, false⟩

/-- The programmatic apply step of `_update_specific_dialogue`
(orchestrator.py 727–796).  Python truthiness throughout: a `target_index` of
`0` is falsy, so identification falls through to the character branch; an
out-of-range non-zero index fails inside the index branch without falling
through; an empty `modified_line` makes `modify` incomplete; a `scene_number`
of `0` on `add` is falsy, defaulting to `len + 1`. -/
def applyDialogueChange (dc : DialogueChange) (current : List DialogueLine) :
    PatchOutcome (List DialogueLine) :=
  match dc.action with
  | .add =>
    match dc.new_dialogue with
    | some d =>
      let sn : Int :=
        match dc.scene_number with
        | some k => if k = 0 then (current.length : Int) + 1 else k
        | none => (current.length : Int) + 1
      ⟨current ++ [⟨d.character_name, sn, d.line⟩], none, true⟩
    | none => ⟨current, none, false⟩
  | .modify =>
    match dc.identification, dc.modified_line with
    | some id, some ml =>
      if ml = "" then ⟨current, none, false⟩
      else
        match id.target_index with
        | some i =>
          if i ≠ 0 then
            if 0 ≤ i - 1 ∧ i - 1 < (current.length : Int) then
              ⟨setLineAt ml (i - 1).toNat current, none, true⟩
            else ⟨current, none, false⟩
          else dialogueModifyByChar id ml current
        | none => dialogueModifyByChar id ml current
    | _, _ => ⟨current, none, false⟩
  | .remove =>
    match dc.identification with
    | some id =>
      match id.target_index with
      | some i =>
        if i ≠ 0 then
          if 0 ≤ i - 1 ∧ i - 1 < (current.length : Int) then
            ⟨current.eraseIdx (i - 1).toNat, none, true⟩
          else ⟨current, none, false⟩
        else dialogueRemoveByChar id current
      | none => dialogueRemoveByChar id current
    | none => ⟨current, none, false⟩

/-- The linear search for the anchor scene in the `insert_between` branch
(`for i, scene in enumerate(updated_scenes): if scene_number == insert_after`),
returning the 0-based index of the first match. -/
def sceneIndexOf (target : Int) : List Scene → Option Nat
  | [] => none
  | s :: rest =>
    if s.scene_number = target then some 0
    else (sceneIndexOf target rest).map (· + 1)

/-- `new_scene['scene_number'] = insert_after + 1 + i` over the scenes to
insert, in order. -/
def assignNumbers (start : Int) : List Scene → List Scene
  | [] => []
  | s :: rest => { s with scene_number := start } :: assignNumbers (start + 1) rest

/-- The splice of the `insert_between` branch of `_update_specific_scene`
(orchestrator.py 909–952): find the insertion index (falling back to the end
when the anchor scene number is absent), number the new scenes
`insert_after + 1 …`, bump every scene at or past the insertion index by the
inserted count, and splice the new scenes in. -/
def insertBetweenScenes (insert_after : Int) (toInsert : List Scene)
    (scenes : List Scene) : List Scene :=
  let insert_index :=
    match sceneIndexOf insert_after scenes with
    | some i => i + 1
    | none => scenes.length
  scenes.take insert_index
    ++ assignNumbers (insert_after + 1) toInsert
    ++ (scenes.drop insert_index).map
        (fun s => { s with scene_number := s.scene_number + (toInsert.length : Int) })

/-- The `modify` loop of `_update_specific_scene`: replace the first scene
with the target number by the whole payload; `none` means no match. -/
def modifySceneLoop (n : Int) (payload : Scene) : List Scene → Option (List Scene)
  | [] => none
  | s :: rest =>
    if s.scene_number = n then some (payload :: rest)
    else (modifySceneLoop n payload rest).map (fun r => s :: r)

/-- The `remove` loop of `_update_specific_scene`: delete the first scene with
the target number; `none` means no match. -/
def removeSceneLoop (n : Int) : List Scene → Option (List Scene)
  | [] => none
  | s :: rest =>
    if s.scene_number = n then some rest
    else (removeSceneLoop n rest).map (fun r => s :: r)

/-- The scenes the `insert_between` branch inserts: `new_scenes` when it is a
non-empty list, else the single `new_scene`, else nothing. -/
def scenesToInsert (sc : SceneChange) : List Scene :=
  match sc.new_scenes with
  | some l =>
    if l ≠ [] then l
    else
      match sc.new_scene with
      | some s => [s]
      | none => []
  | none =>
    match sc.new_scene with
    | some s => [s]
    | none => []

/-- The programmatic apply step of `_update_specific_scene` (orchestrator.py
893–989).  `add` appends the payload unmodified; `insert_between` requires an
anchor (`is not None`, so anchor `0` is allowed) and at least one scene to
insert; `modify`/`remove` go by scene number, where Python truthiness makes a
target number of `0` behave as missing. -/
def applySceneChange (sc : SceneChange) (current : List Scene) :
    PatchOutcome (List Scene) :=
  match sc.action with
  | .add =>
    match sc.new_scene with
    | some s => ⟨current ++ [s], none, true⟩
    | none => ⟨current, none, false⟩
  | .insert_between =>
    match sc.insert_after_scene with
    | some a =>
      let toInsert := scenesToInsert sc
      if toInsert = [] then ⟨current, none, false⟩
      else ⟨insertBetweenScenes a toInsert current, none, true⟩
    | none => ⟨current, none, false⟩
  | .modify =>
    match sc.target_scene_number, sc.new_scene with
    | some n, some s =>
      if n = 0 then ⟨current, none, false⟩
      else
        match modifySceneLoop n s current with
        | some r => ⟨r, none, true⟩
        | none => ⟨current, none, false⟩
    | _, _ => ⟨current, none, false⟩
  | .remove =>
    match sc.target_scene_number with
    | some n =>
      if n = 0 then ⟨current, none, false⟩
      else
        match removeSceneLoop n current with
        | some r => ⟨r, none, true⟩
        | none => ⟨current, none, false⟩
    | none => ⟨current, none, false⟩

/-- `_update_specific_location`: apply the change to the current collection
(`original if original else []`), run location-rename propagation when the
modify produced a rename event, then write the collection back. -/
def updateSpecificLocation (ec : EntityChange) (original : Option (List Entity))
    (st : OrchState) : OrchState :=
  let r := applyEntityChange ec (original.getD [])
  let st1 :=
    match r.renameEvent with
    | some p => propagateLocationNameChange p.1 p.2 st
    | none => st
  { st1 with locations := some r.collection }

/-- `_update_specific_character`: as for locations, with character-rename
propagation. -/
def updateSpecificCharacter (ec : EntityChange) (original : Option (List Entity))
    (st : OrchState) : OrchState :=
  let r := applyEntityChange ec (original.getD [])
  let st1 :=
    match r.renameEvent with
    | some p => propagateCharacterNameChange p.1 p.2 st
    | none => st
  { st1 with characters := some r.collection }

/-- `_update_specific_dialogue`: apply and write back. -/
def updateSpecificDialogue (dc : DialogueChange) (original : Option (List DialogueLine))
    (st : OrchState) : OrchState :=
  { st with dialogue_scenes := some (applyDialogueChange dc (original.getD [])).collection }

/-- `_update_specific_scene`: apply and write back. -/
def updateSpecificScene (sc : SceneChange) (original : Option (List Scene))
    (st : OrchState) : OrchState :=
  { st with scenes := some (applySceneChange sc (original.getD [])).collection }

/-- `self.state[feedback_key] = feedback` for the routed component's feedback
key from `component_map`. -/
def setFeedback (c : String) (fb : String) (st : OrchState) : OrchState :=
  if c = "draft" then { st with draft_feedback := some fb }
  else if c = "characters" then { st with characters_feedback := some fb }
  else if c = "dialogue" then { st with dialogue_feedback := some fb }
  else if c = "locations" then { st with locations_feedback := some fb }
  else if c = "visual_lookbook" then { st with visual_lookbook_feedback := some fb }
  else if c = "scenes" then { st with scenes_feedback := some fb }
  else st

/-- `del self.state[feedback_key]` at the end of `update_component`. -/
def clearFeedback (c : String) (st : OrchState) : OrchState :=
  if c = "draft" then { st with draft_feedback := none }
  else if c = "characters" then { st with characters_feedback := none }
  else if c = "dialogue" then { st with dialogue_feedback := none }
  else if c = "locations" then { st with locations_feedback := none }
  else if c = "visual_lookbook" then { st with visual_lookbook_feedback := none }
  else if c = "scenes" then { st with scenes_feedback := none }
  else st

/-- The fixed trigger-phrase list of `update_component` (orchestrator.py
1128–1130) that authorizes a scene-count increase. -/
def increaseKeywords : List String :=
  ["add scene", "add more scene", "need more scene", "create more scene",
   "insert scene", "additional scene", "more scenes", "expand scenes",
   "increase scene count", "add another scene", "add new scene"]

/-- `allow_increase = any(keyword in feedback_lower for keyword in increase_keywords)`. -/
def sceneAllowIncrease (fb : String) : Bool :=
  increaseKeywords.any (fun kw => pyContains (pyLower fb) kw)

/-- `len(original_scenes) if original_scenes else self.state.get('number_of_scenes', 12)`
(a `None` or empty scene list falls back to the stored count, default 12). -/
def sceneCurrentCount (st : OrchState) : Int :=
  match st.scenes with
  | some l => if l ≠ [] then (l.length : Int) else st.number_of_scenes.getD 12
  | none => st.number_of_scenes.getD 12

/-- The state handed to the scene patch step: feedback scratch field set, the
`allow_scene_increase` flag computed from the trigger phrases, and
`number_of_scenes` pinned to the current count (orchestrator.py 1117–1142). -/
def scenesPrePatch (fb : String) (st : OrchState) : OrchState :=
  { setFeedback "scenes" fb st with
    allow_scene_increase := some (sceneAllowIncrease fb),
    number_of_scenes := some (sceneCurrentCount st) }

/-- The structured responses obtained from the external Proposer / node
functions during one `update_component` run; `update_component` reads only the
entry matching the routed component. `draftResult` / `lookbookResult` are the
`draft` / `visual_lookbook` keys of the node function's returned dict. -/
structure ProposerInputs where
  locationChange : EntityChange
  characterChange : EntityChange
  dialogueChange : DialogueChange
  sceneChange : SceneChange
  draftResult : Option String
  lookbookResult : Option String
deriving DecidableEq, Repr

/-- `OrchestratorAgent.update_component` (orchestrator.py 998–1236), success
path of the Proposer call.  Unknown components return the state unchanged;
each known component sets its transient feedback field, runs its surgical
update, and clears the transient fields before returning.  The generic
restore block at the end of the source (1181–1218) is unreachable: all six
known components return early from their special-handling branches. -/
def updateComponent (c : String) (fb : String) (inp : ProposerInputs)
    (st : OrchState) : OrchState :=
  if c ∉ ["draft", "characters", "dialogue", "locations", "visual_lookbook", "scenes"] then
    st
  else
    let st0 := setFeedback c fb st
    if c = "draft" then
      let st1 :=
        match inp.draftResult with
        | some d => { st0 with draft := some d }
        | none => st0
      clearFeedback c st1
    else if c = "locations" then
      clearFeedback c (updateSpecificLocation inp.locationChange st.locations st0)
    else if c = "characters" then
      clearFeedback c (updateSpecificCharacter inp.characterChange st.characters st0)
    else if c = "dialogue" then
      clearFeedback c (updateSpecificDialogue inp.dialogueChange st.dialogue_scenes st0)
    else if c = "scenes" then
      let st1 := scenesPrePatch fb st
      let st2 := updateSpecificScene inp.sceneChange st.scenes st1
      { clearFeedback c st2 with allow_scene_increase := none }
    else
      let st1 :=
        match inp.lookbookResult with
        | some v => { st0 with visual_lookbook := some v }
        | none => st0
      clearFeedback c st1

lemma string_eq_empty_iff {s : String} : s = "" ↔ s.data = [] := by
  constructor
  · intro h
    subst h
    rfl
  · intro h
    cases s with
    | mk data => simp only [String.data] at h; subst h; rfl

lemma pyLower_eq_empty_iff {s : String} : pyLower s = "" ↔ s = "" := by
  rw [@string_eq_empty_iff (pyLower s), @string_eq_empty_iff s]
  simp [pyLower]

lemma pyContains_empty_left {t : String} (h : t ≠ "") : pyContains "" t = false := by
  have h' : t.data ≠ [] := fun hc => h (string_eq_empty_iff.mpr hc)
  unfold pyContains containsSub
  cases hd : t.data with
  | nil => exact absurd hd h'
  | cons a l => simp [isPrefixCh]

lemma splitWsAux_mem_ne_nil :
    ∀ (l acc : List Char) (t : List Char), t ∈ splitWsAux l acc → acc ≠ [] ∨ True → t ≠ [] := by
  intro l
  induction l with
  | nil =>
    intro acc t ht _
    unfold splitWsAux at ht
    by_cases h : acc.isEmpty
    · simp [h] at ht
    · simp [h] at ht
      subst ht
      intro hc
      rw [List.reverse_eq_nil_iff] at hc
      subst hc
      simp at h
  | cons c rest ih =>
    intro acc t ht _
    unfold splitWsAux at ht
    by_cases hsp : pyIsSpace c
    · simp only [hsp, if_true] at ht
      by_cases h : acc.isEmpty
      · simp only [h, if_true] at ht
        exact ih [] t ht (Or.inr trivial)
      · simp only [h, if_false] at ht
        rcases List.mem_cons.mp ht with h1 | h1
        · subst h1
          intro hc
          rw [List.reverse_eq_nil_iff] at hc
          subst hc
          simp at h
        · exact ih [] t h1 (Or.inr trivial)
    · simp only [hsp, if_false] at ht
      exact ih (c :: acc) t ht (Or.inr trivial)

lemma pyFirstToken_ne_empty {s : String} (h : s ≠ "") : pyFirstToken s ≠ "" := by
  unfold pyFirstToken
  split
  · cases hsp : pySplitWs s with
    | nil => simpa [hsp] using h
    | cons t ts =>
      simp only [hsp, List.headD_cons]
      unfold pySplitWs at hsp
      have ht : t ∈ (splitWsAux s.data []).map (fun l => (⟨l⟩ : String)) := by
        rw [hsp]; exact List.mem_cons_self t ts
      rcases List.mem_map.mp ht with ⟨l, hl, hlt⟩
      have hne := splitWsAux_mem_ne_nil s.data [] l hl (Or.inr trivial)
      intro hc
      rw [← hlt, string_eq_empty_iff] at hc
      exact hne hc
  · exact h

lemma charProseRewrite_empty {old new : String} (h : old ≠ "") :
    charProseRewrite old new "" = "" := by
  unfold charProseRewrite
  simp [pyContains_empty_left h, pyContains_empty_left (pyFirstToken_ne_empty h)]

lemma updateComponent_draft_eq (fb : String) (inp : ProposerInputs) (st : OrchState) :
    updateComponent "draft" fb inp st =
      clearFeedback "draft"
        (match inp.draftResult with
         | some d => { setFeedback "draft" fb st with draft := some d }
         | none => setFeedback "draft" fb st) := by
  simp [updateComponent]

lemma updateComponent_locations_eq (fb : String) (inp : ProposerInputs) (st : OrchState) :
    updateComponent "locations" fb inp st =
      clearFeedback "locations"
        (updateSpecificLocation inp.locationChange st.locations (setFeedback "locations" fb st)) := by
  simp [updateComponent]

lemma updateComponent_characters_eq (fb : String) (inp : ProposerInputs) (st : OrchState) :
    updateComponent "characters" fb inp st =
      clearFeedback "characters"
        (updateSpecificCharacter inp.characterChange st.characters (setFeedback "characters" fb st)) := by
  simp [updateComponent]

lemma updateComponent_dialogue_eq (fb : String) (inp : ProposerInputs) (st : OrchState) :
    updateComponent "dialogue" fb inp st =
      clearFeedback "dialogue"
        (updateSpecificDialogue inp.dialogueChange st.dialogue_scenes (setFeedback "dialogue" fb st)) := by
  simp [updateComponent]

lemma updateComponent_scenes_eq (fb : String) (inp : ProposerInputs) (st : OrchState) :
    updateComponent "scenes" fb inp st =
      { clearFeedback "scenes"
          (updateSpecificScene inp.sceneChange st.scenes (scenesPrePatch fb st)) with
        allow_scene_increase := none } := by
  simp [updateComponent]

lemma updateComponent_visual_eq (fb : String) (inp : ProposerInputs) (st : OrchState) :
    updateComponent "visual_lookbook" fb inp st =
      clearFeedback "visual_lookbook"
        (match inp.lookbookResult with
         | some v => { setFeedback "visual_lookbook" fb st with visual_lookbook := some v }
         | none => setFeedback "visual_lookbook" fb st) := by
  simp [updateComponent]

lemma entityModifyLoop_none {t : String} {p : Entity} {l : List Entity}
    (h : ∀ x ∈ l, pyLower x.name ≠ pyLower t) : entityModifyLoop t p l = none := by
  induction l with
  | nil => rfl
  | cons e rest ih =>
    unfold entityModifyLoop
    rw [if_neg (h e (List.mem_cons_self e rest)), ih (fun x hx => h x (List.mem_cons_of_mem e hx))]
    rfl

lemma entityRemoveLoop_none {t : String} {l : List Entity}
    (h : ∀ x ∈ l, pyLower x.name ≠ pyLower t) : entityRemoveLoop t l = none := by
  induction l with
  | nil => rfl
  | cons e rest ih =>
    unfold entityRemoveLoop
    rw [if_neg (h e (List.mem_cons_self e rest)), ih (fun x hx => h x (List.mem_cons_of_mem e hx))]
    rfl

lemma setLineFirstChar_none {c ml : String} {l : List DialogueLine}
    (h : ∀ d ∈ l, pyLower d.character_name ≠ pyLower c) : setLineFirstChar c ml l = none := by
  induction l with
  | nil => rfl
  | cons d rest ih =>
    unfold setLineFirstChar
    rw [if_neg (h d (List.mem_cons_self d rest)), ih (fun x hx => h x (List.mem_cons_of_mem d hx))]
    rfl

lemma removeFirstChar_none {c : String} {l : List DialogueLine}
    (h : ∀ d ∈ l, pyLower d.character_name ≠ pyLower c) : removeFirstChar c l = none := by
  induction l with
  | nil => rfl
  | cons d rest ih =>
    unfold removeFirstChar
    rw [if_neg (h d (List.mem_cons_self d rest)), ih (fun x hx => h x (List.mem_cons_of_mem d hx))]
    rfl

lemma modifySceneLoop_none {n : Int} {p : Scene} {l : List Scene}
    (h : ∀ s ∈ l, s.scene_number ≠ n) : modifySceneLoop n p l = none := by
  induction l with
  | nil => rfl
  | cons s rest ih =>
    unfold modifySceneLoop
    rw [if_neg (h s (List.mem_cons_self s rest)), ih (fun x hx => h x (List.mem_cons_of_mem s hx))]
    rfl

lemma removeSceneLoop_none {n : Int} {l : List Scene}
    (h : ∀ s ∈ l, s.scene_number ≠ n) : removeSceneLoop n l = none := by
  induction l with
  | nil => rfl
  | cons s rest ih =>
    unfold removeSceneLoop
    rw [if_neg (h s (List.mem_cons_self s rest)), ih (fun x hx => h x (List.mem_cons_of_mem s hx))]
    rfl

lemma applyEntityChange_noop {ec : EntityChange} {l : List Entity}
    (hact : ec.action ≠ .add)
    (htgt : ∀ t, ec.target_name = some t → t ≠ "" → ∀ x ∈ l, pyLower x.name ≠ pyLower t) :
    applyEntityChange ec l = ⟨l, none, false⟩ := by
  obtain ⟨act, tn, ne⟩ := ec
  cases act with
  | add => exact absurd rfl hact
  | modify =>
    cases tn with
    | none => cases ne <;> rfl
    | some t =>
      cases ne with
      | none => rfl
      | some p =>
        simp only [applyEntityChange]
        by_cases ht : t = ""
        · rw [if_pos ht]
        · rw [if_neg ht, entityModifyLoop_none (htgt t rfl ht)]
  | remove =>
    cases tn with
    | none => rfl
    | some t =>
      simp only [applyEntityChange]
      by_cases ht : t = ""
      · rw [if_pos ht]
      · rw [if_neg ht, entityRemoveLoop_none (htgt t rfl ht)]

/-- Does a `DialogueIdentification`'s character branch locate a line?
(Python truthiness: an empty target character is absent.) -/
def dialogueCharResolves (id : DialogueIdentification) (l : List DialogueLine) : Bool :=
  match id.target_character with
  | some c => c ≠ "" && l.any (fun d => pyLower d.character_name = pyLower c)
  | none => false

/-- Does a `DialogueIdentification` locate a line of `l`, following the
source's branching: a truthy (non-zero) index is used exclusively, and must be
in range; a zero or missing index falls through to the character branch. -/
def dialogueTargetResolves (id : DialogueIdentification) (l : List DialogueLine) : Bool :=
  match id.target_index with
  | some i =>
    if i ≠ 0 then decide (0 ≤ i - 1 ∧ i - 1 < (l.length : Int))
    else dialogueCharResolves id l
  | none => dialogueCharResolves id l

lemma dialogueModifyByChar_noop {id : DialogueIdentification} {ml : String}
    {l : List DialogueLine} (h : dialogueCharResolves id l = false) :
    dialogueModifyByChar id ml l = ⟨l, none, false⟩ := by
  unfold dialogueCharResolves at h
  unfold dialogueModifyByChar
  cases hc : id.target_character with
  | none => rfl
  | some c =>
    rw [hc] at h
    by_cases hce : c = ""
    · simp [hce]
    · have h2 : l.any (fun d => pyLower d.character_name = pyLower c) = false := by
        simpa [hce] using h
      simp [hce, setLineFirstChar_none (by simpa [List.any_eq_false] using h2)]

lemma dialogueRemoveByChar_noop {id : DialogueIdentification}
    {l : List DialogueLine} (h : dialogueCharResolves id l = false) :
    dialogueRemoveByChar id l = ⟨l, none, false⟩ := by
  unfold dialogueCharResolves at h
  unfold dialogueRemoveByChar
  cases hc : id.target_character with
  | none => rfl
  | some c =>
    rw [hc] at h
    by_cases hce : c = ""
    · simp [hce]
    · have h2 : l.any (fun d => pyLower d.character_name = pyLower c) = false := by
        simpa [hce] using h
      simp [hce, removeFirstChar_none (by simpa [List.any_eq_false] using h2)]

lemma applyDialogueChange_noop {dc : DialogueChange} {l : List DialogueLine}
    (hact : dc.action ≠ .add)
    (hid : ∀ id, dc.identification = some id → dialogueTargetResolves id l = false) :
    applyDialogueChange dc l = ⟨l, none, false⟩ := by
  obtain ⟨act, idn, nd, ml, sn⟩ := dc
  cases act with
  | add => exact absurd rfl hact
  | modify =>
    cases idn with
    | none => cases ml <;> rfl
    | some id =>
      have h := hid id rfl
      unfold dialogueTargetResolves at h
      cases ml with
      | none => rfl
      | some m =>
        simp only [applyDialogueChange]
        by_cases hm : m = ""
        · rw [if_pos hm]
        · rw [if_neg hm]
          cases hti : id.target_index with
          | none =>
            rw [hti] at h
            exact dialogueModifyByChar_noop h
          | some i =>
            rw [hti] at h
            by_cases hi : i = 0
            · simp only [hi, ne_eq, not_true_eq_false, if_false] at h
              simp only [hi, ne_eq, not_true_eq_false, ite_false]
              exact dialogueModifyByChar_noop h
            · simp only [ne_eq, hi, not_false_iff, if_true] at h
              simp only [ne_eq, hi, not_false_iff, ite_true]
              rw [if_neg (of_decide_eq_false h)]
  | remove =>
    cases idn with
    | none => rfl
    | some id =>
      have h := hid id rfl
      unfold dialogueTargetResolves at h
      simp only [applyDialogueChange]
      cases hti : id.target_index with
      | none =>
        rw [hti] at h
        exact dialogueRemoveByChar_noop h
      | some i =>
        rw [hti] at h
        by_cases hi : i = 0
        · simp only [hi, ne_eq, not_true_eq_false, if_false] at h
          simp only [hi, ne_eq, not_true_eq_false, ite_false]
          exact dialogueRemoveByChar_noop h
        · simp only [ne_eq, hi, not_false_iff, if_true] at h
          simp only [ne_eq, hi, not_false_iff, ite_true]
          rw [if_neg (of_decide_eq_false h)]

lemma applySceneChange_noop {sc : SceneChange} {l : List Scene}
    (hact : sc.action = .modify ∨ sc.action = .remove)
    (htgt : ∀ n, sc.target_scene_number = some n → n ≠ 0 → ∀ s ∈ l, s.scene_number ≠ n) :
    applySceneChange sc l = ⟨l, none, false⟩ := by
  obtain ⟨act, tn, ia, ni, nss, ns⟩ := sc
  cases act with
  | add => simp at hact
  | insert_between => simp at hact
  | modify =>
    cases tn with
    | none => cases ns <;> rfl
    | some n =>
      cases ns with
      | none => rfl
      | some p =>
        simp only [applySceneChange]
        by_cases hn : n = 0
        · rw [if_pos hn]
        · rw [if_neg hn, modifySceneLoop_none (htgt n rfl hn)]
  | remove =>
    cases tn with
    | none => rfl
    | some n =>
      simp only [applySceneChange]
      by_cases hn : n = 0
      · rw [if_pos hn]
      · rw [if_neg hn, removeSceneLoop_none (htgt n rfl hn)]

/-- The scenes are numbered `n, n+1, n+2, …` in list order. -/
def numberedFromB : Int → List Scene → Bool
  | _, [] => true
  | n, s :: rest => s.scene_number = n && numberedFromB (n + 1) rest

lemma range_map_succ_shift (n : Int) (k : Nat) :
    (List.range (k + 1)).map (fun i : Nat => n + (i : Int)) =
      n :: (List.range k).map (fun i : Nat => (n + 1) + (i : Int)) := by
  rw [List.range_succ_eq_map, List.map_cons, List.map_map]
  congr 1
  · simp
  · apply List.map_congr_left
    intro i _
    show n + ((i + 1 : Nat) : Int) = (n + 1) + (i : Int)
    push_cast
    ring

lemma numberedFromB_iff_map :
    ∀ (l : List Scene) (n : Int),
      numberedFromB n l = true ↔
        l.map Scene.scene_number = (List.range l.length).map (fun i : Nat => n + (i : Int)) := by
  intro l
  induction l with
  | nil => intro n; simp [numberedFromB]
  | cons s rest ih =>
    intro n
    rw [List.length_cons, range_map_succ_shift, List.map_cons]
    simp only [numberedFromB, Bool.and_eq_true, decide_eq_true_eq, List.cons_eq_cons]
    rw [ih (n + 1)]

lemma sceneIndexOf_numbered :
    ∀ (l : List Scene) (n : Int) (j : Nat), numberedFromB n l = true → j < l.length →
      sceneIndexOf (n + (j : Int)) l = some j := by
  intro l
  induction l with
  | nil => intro n j _ hj; simp at hj
  | cons s rest ih =>
    intro n j hnum hj
    simp only [numberedFromB, Bool.and_eq_true, decide_eq_true_eq] at hnum
    obtain ⟨h1, h2⟩ := hnum
    cases j with
    | zero =>
      unfold sceneIndexOf
      rw [if_pos (by omega)]
    | succ k =>
      unfold sceneIndexOf
      rw [if_neg (by omega)]
      have hk : k < rest.length := by simpa using hj
      have := ih (n + 1) k h2 hk
      have harg : n + ((k + 1 : Nat) : Int) = (n + 1) + (k : Int) := by push_cast; ring
      rw [harg, this]
      rfl

lemma sceneIndexOf_none :
    ∀ (l : List Scene) (a : Int), (∀ s ∈ l, s.scene_number ≠ a) → sceneIndexOf a l = none := by
  intro l
  induction l with
  | nil => intro a _; rfl
  | cons s rest ih =>
    intro a h
    unfold sceneIndexOf
    rw [if_neg (h s (List.mem_cons_self s rest)),
       ih a (fun x hx => h x (List.mem_cons_of_mem s hx))]
    rfl

lemma numberedFromB_append {xs ys : List Scene} :
    ∀ n : Int, numberedFromB n xs = true → numberedFromB (n + (xs.length : Int)) ys = true →
      numberedFromB n (xs ++ ys) = true := by
  induction xs with
  | nil => intro n _ hy; simpa using hy
  | cons s rest ih =>
    intro n hx hy
    simp only [numberedFromB, Bool.and_eq_true, decide_eq_true_eq] at hx ⊢
    refine ⟨hx.1, ?_⟩
    apply ih (n + 1) hx.2
    have : (n + 1) + ((rest.length : Nat) : Int) = n + (((s :: rest).length : Nat) : Int) := by
      simp; ring
    rw [this]
    exact hy

lemma numberedFromB_take :
    ∀ (l : List Scene) (n : Int) (k : Nat), numberedFromB n l = true →
      numberedFromB n (l.take k) = true := by
  intro l
  induction l with
  | nil => intro n k _; simp [numberedFromB]
  | cons s rest ih =>
    intro n k h
    cases k with
    | zero => rfl
    | succ m =>
      simp only [numberedFromB, Bool.and_eq_true, decide_eq_true_eq] at h
      simp only [List.take_succ_cons, numberedFromB, Bool.and_eq_true, decide_eq_true_eq]
      exact ⟨h.1, ih (n + 1) m h.2⟩

lemma numberedFromB_drop :
    ∀ (l : List Scene) (n : Int) (k : Nat), numberedFromB n l = true → k ≤ l.length →
      numberedFromB (n + (k : Int)) (l.drop k) = true := by
  intro l
  induction l with
  | nil =>
    intro n k _ hk
    have hk0 : k = 0 := Nat.le_zero.mp (by simpa using hk)
    subst hk0
    simp [numberedFromB]
  | cons s rest ih =>
    intro n k h hk
    cases k with
    | zero => simpa using h
    | succ m =>
      simp only [numberedFromB, Bool.and_eq_true, decide_eq_true_eq] at h
      have := ih (n + 1) m h.2 (by simpa using hk)
      simp only [List.drop_succ_cons]
      have harg : n + ((m + 1 : Nat) : Int) = (n + 1) + (m : Int) := by push_cast; ring
      rw [harg]
      exact this

lemma numberedFromB_assignNumbers : ∀ (l : List Scene) (n : Int),
    numberedFromB n (assignNumbers n l) = true := by
  intro l
  induction l with
  | nil => intro n; rfl
  | cons s rest ih =>
    intro n
    simp only [assignNumbers, numberedFromB, Bool.and_eq_true, decide_eq_true_eq]
    exact ⟨trivial, ih (n + 1)⟩

lemma assignNumbers_length : ∀ (l : List Scene) (n : Int),
    (assignNumbers n l).length = l.length := by
  intro l
  induction l with
  | nil => intro n; rfl
  | cons s rest ih => intro n; simp [assignNumbers, ih]

lemma numberedFromB_bump :
    ∀ (l : List Scene) (n k : Int), numberedFromB n l = true →
      numberedFromB (n + k)
        (l.map (fun s => { s with scene_number := s.scene_number + k })) = true := by
  intro l
  induction l with
  | nil => intro n k _; rfl
  | cons s rest ih =>
    intro n k h
    simp only [numberedFromB, Bool.and_eq_true, decide_eq_true_eq] at h
    simp only [List.map_cons, numberedFromB, Bool.and_eq_true, decide_eq_true_eq]
    constructor
    · simp [h.1]
    · have := ih (n + 1) k h.2
      have harg : n + 1 + k = n + k + 1 := by ring
      rw [harg] at this
      exact this

lemma numbered_mem_index :
    ∀ (l : List Scene) (n : Int) (s : Scene), numberedFromB n l = true → s ∈ l →
      ∃ j : Nat, j < l.length ∧ s.scene_number = n + (j : Int) := by
  intro l
  induction l with
  | nil => intro n s _ hs; simp at hs
  | cons x rest ih =>
    intro n s hnum hs
    simp only [numberedFromB, Bool.and_eq_true, decide_eq_true_eq] at hnum
    rcases List.mem_cons.mp hs with h | h
    · exact ⟨0, by simp, by simp [h, hnum.1]⟩
    · rcases ih (n + 1) s hnum.2 h with ⟨j, hj, hsj⟩
      exact ⟨j + 1, by simpa using Nat.succ_lt_succ hj, by push_cast [hsj]; ring⟩

lemma insertBetweenScenes_splice {scenes toInsert : List Scene} {j : Nat}
    (hnum : numberedFromB 1 scenes = true) (hj : j < scenes.length) :
    insertBetweenScenes (1 + (j : Int)) toInsert scenes =
      scenes.take (j + 1)
        ++ assignNumbers (1 + (j : Int) + 1) toInsert
        ++ (scenes.drop (j + 1)).map
            (fun s => { s with scene_number := s.scene_number + (toInsert.length : Int) }) := by
  unfold insertBetweenScenes
  rw [sceneIndexOf_numbered scenes 1 j hnum hj]

lemma insertBetweenScenes_numbered {scenes toInsert : List Scene} {j : Nat}
    (hnum : numberedFromB 1 scenes = true) (hj : j < scenes.length) :
    numberedFromB 1 (insertBetweenScenes (1 + (j : Int)) toInsert scenes) = true := by
  rw [insertBetweenScenes_splice hnum hj]
  have hlen_take : (scenes.take (j + 1)).length = j + 1 := by
    rw [List.length_take]
    omega
  rw [List.append_assoc]
  apply numberedFromB_append 1 (numberedFromB_take scenes 1 (j + 1) hnum)
  rw [hlen_take]
  apply numberedFromB_append
  · have h1 : (1 : Int) + ((j + 1 : Nat) : Int) = 1 + (j : Int) + 1 := by push_cast; ring
    rw [h1]
    exact numberedFromB_assignNumbers toInsert (1 + (j : Int) + 1)
  · have hdrop := numberedFromB_drop scenes 1 (j + 1) hnum (by omega)
    have hbump := numberedFromB_bump (scenes.drop (j + 1)) (1 + ((j + 1 : Nat) : Int))
      (toInsert.length : Int) hdrop
    have h2 : (1 : Int) + ((j + 1 : Nat) : Int) + ((assignNumbers (1 + (j : Int) + 1) toInsert).length : Int)
        = 1 + ((j + 1 : Nat) : Int) + (toInsert.length : Int) := by
      rw [assignNumbers_length]
    rw [h2]
    exact hbump

lemma insertBetweenScenes_length {scenes toInsert : List Scene} {j : Nat}
    (hnum : numberedFromB 1 scenes = true) (hj : j < scenes.length) :
    (insertBetweenScenes (1 + (j : Int)) toInsert scenes).length
      = scenes.length + toInsert.length := by
  rw [insertBetweenScenes_splice hnum hj]
  simp only [List.length_append, List.length_take, List.length_map, List.length_drop,
    assignNumbers_length]
  omega

/-- A scene with the given number and empty prose/camera fields. -/
def mkScene (n : Int) : Scene := ⟨n, "", "", "", "", "", "", []⟩

/-- An inert change (an `add` with no payload is a no-op in every patcher). -/
def noEntityChange : EntityChange := ⟨.add, none, none⟩

/-- An inert dialogue change. -/
def noDialogueChange : DialogueChange := ⟨.add, none, none, none, none⟩

/-- An inert scene change. -/
def noSceneChange : SceneChange := ⟨.add, none, none, none, none, none⟩

/-- Proposer inputs where every component's change is inert. -/
def baseInputs : ProposerInputs :=
  ⟨noEntityChange, noEntityChange, noDialogueChange, noSceneChange, none, none⟩

/-- A small populated session state used for concrete evaluations. -/
def baseState : OrchState :=
  { title := some "T", genre := some "G", tone := some "N",
    draft := some "Elena met Elena",
    characters := some [⟨"Elena", "hero"⟩],
    locations := some [⟨"Cafe", "desc"⟩],
    dialogue_scenes := some [⟨"Elena", 1, "hi"⟩],
    scenes := some [mkScene 1, mkScene 2],
    visual_lookbook := some "look",
    number_of_scenes := some 2,
    draft_feedback := none, characters_feedback := none, dialogue_feedback := none,
    locations_feedback := none, visual_lookbook_feedback := none, scenes_feedback := none,
    allow_scene_increase := none }

lemma removeSceneLoop_append {n : Int} {pre post : List Scene} {s : Scene}
    (hs : s.scene_number = n) (hpre : ∀ t ∈ pre, t.scene_number ≠ n) :
    removeSceneLoop n (pre ++ s :: post) = some (pre ++ post) := by
  induction pre with
  | nil =>
    simp only [List.nil_append, removeSceneLoop, if_pos hs]
  | cons x rest ih =>
    simp only [List.cons_append, removeSceneLoop, List.append_eq]
    rw [if_neg (hpre x (List.mem_cons_self x rest)),
      ih (fun t ht => hpre t (List.mem_cons_of_mem x ht))]
    rfl

/-- C4 counterexample: an `add` proposal whose payload carries scene number 99
is appended to a 3-scene list (max number 3) keeping scene number 99 — the
code never assigns `previousMax + 1` on `add`. -/
theorem scene_add_number_counterexample :
    (applySceneChange ⟨.add, none, none, none, none, some (mkScene 99)⟩
        [mkScene 1, mkScene 2, mkScene 3]).collection
      = [mkScene 1, mkScene 2, mkScene 3, mkScene 99]
    ∧ (mkScene 99).scene_number ≠ 3 + 1 := by
  exact ⟨rfl, by decide⟩

/-- C4 (amended): an `add` proposal with a payload scene appends exactly that
scene, unmodified, at the end of the list — its scene number is whatever the
payload carries, not `previousMax + 1`. -/
theorem scene_add_appends (scenes : List Scene) (p : Scene) (sc : SceneChange)
    (hact : sc.action = .add) (hp : sc.new_scene = some p) :
    applySceneChange sc scenes = ⟨scenes ++ [p], none, true⟩ := by
  obtain ⟨act, tn, ia, ni, nss, ns⟩ := sc
  simp only at hact hp
  subst hact
  subst hp
  rfl

/-- Witness for C4's amended theorem at a concrete input. -/
theorem scene_add_appends_witness :
    applySceneChange ⟨.add, none, none, none, none, some (mkScene 4)⟩ [mkScene 1]
      = ⟨[mkScene 1, mkScene 4], none, true⟩ :=
  scene_add_appends [mkScene 1] (mkScene 4) ⟨.add, none, none, none, none, some (mkScene 4)⟩ rfl rfl

/-- C7 counterexample: a `remove` proposal targeting scene number 0 does not
delete the first scene numbered 0 — Python truthiness treats target 0 as
missing and the patch is a warning no-op. -/
theorem scene_remove_zero_counterexample :
    (applySceneChange ⟨.remove, some 0, none, none, none, none⟩ [mkScene 0]).collection
      = [mkScene 0]
    ∧ ([mkScene 0] : List Scene) ≠ []
    ∧ (applySceneChange ⟨.remove, some 0, none, none, none, none⟩ [mkScene 0]).applied = false := by
  exact ⟨rfl, by decide, rfl⟩

/-- C7 (amended): for a non-zero target scene number `n` (a target of 0 is
treated as missing), `remove` deletes exactly the first scene numbered `n`;
every remaining scene is returned unchanged — numbers untouched, order
preserved, leaving a gap in the numbering. -/
theorem scene_remove_gap (n : Int) (pre post : List Scene) (s : Scene) (sc : SceneChange)
    (hn : n ≠ 0) (hact : sc.action = .remove) (htgt : sc.target_scene_number = some n)
    (hs : s.scene_number = n) (hpre : ∀ t ∈ pre, t.scene_number ≠ n) :
    applySceneChange sc (pre ++ s :: post) = ⟨pre ++ post, none, true⟩ := by
  obtain ⟨act, tn, ia, ni, nss, ns⟩ := sc
  simp only at hact htgt
  subst hact
  subst htgt
  simp only [applySceneChange]
  rw [if_neg hn, removeSceneLoop_append hs hpre]

/-- Witness for C7's amended theorem: removing scene 2 from scenes 1,2,3
leaves scenes numbered 1 and 3 (a gap, no renumbering). -/
theorem scene_remove_gap_witness :
    applySceneChange ⟨.remove, some 2, none, none, none, none⟩
        [mkScene 1, mkScene 2, mkScene 3]
      = ⟨[mkScene 1, mkScene 3], none, true⟩ :=
  scene_remove_gap 2 [mkScene 1] [mkScene 3] (mkScene 2)
    ⟨.remove, some 2, none, none, none, none⟩ (by decide) rfl rfl rfl (by decide)

/-- C9: dialogue identification by 1-based index at the edges — a negative or
too-large (non-zero) index makes `modify`/`remove` a warning no-op without
consulting the character branch; an index of exactly 0 is falsy in Python, so
identification behaves as if no index were supplied and falls through to the
character-name branch. -/
theorem dialogue_index_edges (l : List DialogueLine) (i : Int) (tc : Option String)
    (ml : String) (hml : ml ≠ "") (hi : i < 0 ∨ (l.length : Int) < i) :
    applyDialogueChange ⟨.modify, some ⟨some i, tc⟩, none, some ml, none⟩ l = ⟨l, none, false⟩
    ∧ applyDialogueChange ⟨.remove, some ⟨some i, tc⟩, none, none, none⟩ l = ⟨l, none, false⟩
    ∧ (∀ (nd : Option Dialogue) (ml2 : Option String) (sn : Option Int),
        applyDialogueChange ⟨.modify, some ⟨some 0, tc⟩, nd, ml2, sn⟩ l
          = applyDialogueChange ⟨.modify, some ⟨none, tc⟩, nd, ml2, sn⟩ l)
    ∧ (∀ (nd : Option Dialogue) (ml2 : Option String) (sn : Option Int),
        applyDialogueChange ⟨.remove, some ⟨some 0, tc⟩, nd, ml2, sn⟩ l
          = applyDialogueChange ⟨.remove, some ⟨none, tc⟩, nd, ml2, sn⟩ l) := by
  have hiz : i ≠ 0 := by omega
  have hb : ¬ (0 ≤ i - 1 ∧ i - 1 < (l.length : Int)) := by omega
  refine ⟨?_, ?_, ?_, ?_⟩
  · simp only [applyDialogueChange]
    rw [if_neg hml, if_pos hiz, if_neg hb]
  · simp only [applyDialogueChange]
    rw [if_pos hiz, if_neg hb]
  · intro nd ml2 sn
    cases ml2 with
    | none => rfl
    | some m => rfl
  · intro nd ml2 sn
    rfl

/-- Witness for C9 at a concrete input: index 5 into a single-line collection
is out of range, leaving the collection unchanged. -/
theorem dialogue_index_edges_witness :
    applyDialogueChange ⟨.modify, some ⟨some 5, some "Elena"⟩, none, some "x", none⟩
        [⟨"Elena", 1, "hi"⟩]
      = ⟨[⟨"Elena", 1, "hi"⟩], none, false⟩ :=
  (dialogue_index_edges [⟨"Elena", 1, "hi"⟩] 5 (some "Elena") "x" (by decide) (by decide)).1

/-- C10: when the anchor scene number of an `insert_between` proposal matches
no existing scene, the new scenes are appended at the end, still numbered
`insertAfterSceneNumber + 1 …`, and no existing scene is renumbered; on some
inputs this yields non-contiguous and even duplicate scene numbers, e.g.
inserting one scene after the absent anchor 0 into scenes 1,2 yields the
number sequence 1,2,1. -/
theorem insert_anchor_missing (a : Int) (toInsert scenes : List Scene) (sc : SceneChange)
    (hact : sc.action = .insert_between) (hanch : sc.insert_after_scene = some a)
    (hins : scenesToInsert sc = toInsert) (hne : toInsert ≠ [])
    (hmiss : ∀ s ∈ scenes, s.scene_number ≠ a) :
    (applySceneChange sc scenes).collection = scenes ++ assignNumbers (a + 1) toInsert
    ∧ numberedFromB (a + 1) (assignNumbers (a + 1) toInsert) = true
    ∧ (assignNumbers (a + 1) toInsert).length = toInsert.length
    ∧ ((insertBetweenScenes 0 [mkScene 99] [mkScene 1, mkScene 2]).map Scene.scene_number
          = [1, 2, 1]
        ∧ numberedFromB 1 (insertBetweenScenes 0 [mkScene 99] [mkScene 1, mkScene 2]) = false
        ∧ ¬ ((insertBetweenScenes 0 [mkScene 99] [mkScene 1, mkScene 2]).map
              Scene.scene_number).Nodup) := by
  refine ⟨?_, numberedFromB_assignNumbers toInsert (a + 1),
    assignNumbers_length toInsert (a + 1), by decide, by decide, by decide⟩
  obtain ⟨act, tn, ia, ni, nss, ns⟩ := sc
  simp only at hact hanch
  subst hact
  subst hanch
  simp only [applySceneChange]
  rw [hins, if_neg hne]
  unfold insertBetweenScenes
  rw [sceneIndexOf_none scenes a hmiss]
  simp [List.take_length, List.drop_length]

/-- Witness for C10: inserting one scene after the absent anchor 7 into
scenes 1,2 appends it numbered 8. -/
theorem insert_anchor_missing_witness :
    (applySceneChange ⟨.insert_between, none, some 7, none, some [mkScene 0], none⟩
        [mkScene 1, mkScene 2]).collection
      = [mkScene 1, mkScene 2] ++ assignNumbers 8 [mkScene 0] :=
  (insert_anchor_missing 7 [mkScene 0] [mkScene 1, mkScene 2]
    ⟨.insert_between, none, some 7, none, some [mkScene 0], none⟩
    rfl rfl (by decide) (by decide) (by decide)).1

/-- An eight-scene document, numbered 1–8. -/
def eightScenes : List Scene :=
  [mkScene 1, mkScene 2, mkScene 3, mkScene 4, mkScene 5, mkScene 6, mkScene 7, mkScene 8]

/-- C3: for a scene list numbered exactly `1..P` ascending and an
`insert_between` proposal whose anchor exists and which supplies `k ≥ 1` new
scenes, the result is numbered exactly `1..P+k` ascending (no gaps, no
duplicates), has `P+k` scenes, the `k` new scenes receive the consecutive
numbers `anchor+1 .. anchor+k`, and the result is literally the original list
spliced: the prefix up to the anchor unchanged, then the new scenes, then the
remaining original scenes in order with numbers shifted up by `k`. -/
theorem insert_between_contiguity (scenes toInsert : List Scene) (a : Int) (sc : SceneChange)
    (hact : sc.action = .insert_between) (hanch : sc.insert_after_scene = some a)
    (hins : scenesToInsert sc = toInsert) (hne : toInsert ≠ [])
    (hnum : scenes.map Scene.scene_number
      = (List.range scenes.length).map (fun i : Nat => 1 + (i : Int)))
    (hany : ∃ s ∈ scenes, s.scene_number = a) :
    ((applySceneChange sc scenes).collection).map Scene.scene_number
        = (List.range (scenes.length + toInsert.length)).map (fun i : Nat => 1 + (i : Int))
    ∧ (applySceneChange sc scenes).collection.length = scenes.length + toInsert.length
    ∧ numberedFromB (a + 1) (assignNumbers (a + 1) toInsert) = true
    ∧ ∃ j : Nat, j < scenes.length ∧ a = 1 + (j : Int) ∧
        (applySceneChange sc scenes).collection
          = scenes.take (j + 1)
            ++ assignNumbers (a + 1) toInsert
            ++ (scenes.drop (j + 1)).map
                (fun s => { s with scene_number := s.scene_number + (toInsert.length : Int) }) := by
  have hnumB : numberedFromB 1 scenes = true := (numberedFromB_iff_map scenes 1).mpr hnum
  obtain ⟨s, hs, hsa⟩ := hany
  obtain ⟨j, hj, hsj⟩ := numbered_mem_index scenes 1 s hnumB hs
  have haj : a = 1 + (j : Int) := by rw [← hsa, hsj]
  obtain ⟨act, tn, ia, ni, nss, ns⟩ := sc
  simp only at hact hanch
  subst hact
  subst hanch
  subst haj
  have hcol : (applySceneChange ⟨.insert_between, tn, some (1 + (j : Int)), ni, nss, ns⟩
      scenes).collection = insertBetweenScenes (1 + (j : Int)) toInsert scenes := by
    simp only [applySceneChange]
    rw [hins, if_neg hne]
  rw [hcol]
  have hnumbered := @insertBetweenScenes_numbered scenes toInsert j hnumB hj
  have hlen := @insertBetweenScenes_length scenes toInsert j hnumB hj
  refine ⟨?_, hlen, numberedFromB_assignNumbers toInsert (1 + (j : Int) + 1),
    ⟨j, hj, rfl, insertBetweenScenes_splice hnumB hj⟩⟩
  have hmap := (numberedFromB_iff_map (insertBetweenScenes (1 + (j : Int)) toInsert scenes) 1).mp
    hnumbered
  rw [hlen] at hmap
  exact hmap

/-- Witness for C3: the spec's own example — an 8-scene document, 2 scenes
inserted after scene 1, yields 10 scenes numbered exactly 1–10 (the new ones
2 and 3, the originals 2–8 shifted to 4–10). -/
theorem insert_between_contiguity_witness :
    ((applySceneChange
        ⟨.insert_between, none, some 1, some 2, some [mkScene 0, mkScene 0], none⟩
        eightScenes).collection).map Scene.scene_number
      = [1, 2, 3, 4, 5, 6, 7, 8, 9, 10] := by
  have h := (insert_between_contiguity eightScenes [mkScene 0, mkScene 0] 1
    ⟨.insert_between, none, some 1, some 2, some [mkScene 0, mkScene 0], none⟩
    rfl rfl rfl (by decide) (by decide) ⟨mkScene 1, by decide, by decide⟩).1
  rw [h]
  decide

lemma entityModifyLoop_append {t : String} {p e : Entity} {pre post : List Entity}
    (he : pyLower e.name = pyLower t)
    (hpre : ∀ x ∈ pre, pyLower x.name ≠ pyLower t) :
    entityModifyLoop t p (pre ++ e :: post)
      = some (pre ++ p :: post,
          if e.name ≠ "" ∧ e.name ≠ p.name then some (e.name, p.name) else none) := by
  induction pre with
  | nil =>
    simp only [List.nil_append, entityModifyLoop, if_pos he]
  | cons x rest ih =>
    simp only [List.cons_append, entityModifyLoop, List.append_eq]
    rw [if_neg (hpre x (List.mem_cons_self x rest)),
      ih (fun y hy => hpre y (List.mem_cons_of_mem x hy))]
    rfl

lemma name_ne_empty_of_lower_eq {e : Entity} {t : String} (ht : t ≠ "")
    (he : pyLower e.name = pyLower t) : e.name ≠ "" := by
  intro hc
  rw [hc] at he
  have : pyLower t = "" := by
    rw [← he]
    rfl
  exact ht (pyLower_eq_empty_iff.mp this)

/-- C5 counterexample: Python truthiness makes an empty target identifier
behave as missing, so a `modify` whose target is the empty string does not
replace the entity whose name equals it (case-insensitively) — it is a
warning no-op, contradicting the claim's universal replacement promise. -/
theorem entity_modify_empty_target_counterexample :
    (applyEntityChange ⟨.modify, some "", some ⟨"New", "x"⟩⟩ [⟨"", "x"⟩]).collection
      = [⟨"", "x"⟩]
    ∧ ([(⟨"", "x"⟩ : Entity)] ≠ [⟨"New", "x"⟩])
    ∧ (applyEntityChange ⟨.modify, some "", some ⟨"New", "x"⟩⟩ [⟨"", "x"⟩]).applied = false := by
  exact ⟨rfl, by decide, rfl⟩

/-- C5 (amended): for every non-empty target identifier `t` (an empty target
is treated as missing by Python truthiness) and complete payload `p`, the
first entity whose name equals `t` case-insensitively is replaced entirely by
`p`; all other entities keep identical field values and identical relative
order; a rename event `(oldName, newName)` is produced exactly when `p`'s
name differs from the replaced entity's name, and it triggers rename
propagation in the character and location update paths. -/
theorem entity_modify_replacement (t : String) (p e : Entity) (pre post : List Entity)
    (ec : EntityChange) (hact : ec.action = .modify) (htgt : ec.target_name = some t)
    (hp : ec.new_entity = some p) (ht : t ≠ "")
    (he : pyLower e.name = pyLower t)
    (hpre : ∀ x ∈ pre, pyLower x.name ≠ pyLower t) :
    (applyEntityChange ec (pre ++ e :: post)).collection = pre ++ p :: post
    ∧ (applyEntityChange ec (pre ++ e :: post)).applied = true
    ∧ (applyEntityChange ec (pre ++ e :: post)).renameEvent
        = (if e.name ≠ p.name then some (e.name, p.name) else none)
    ∧ (∀ st : OrchState,
        updateSpecificCharacter ec (some (pre ++ e :: post)) st
          = { (if e.name ≠ p.name then propagateCharacterNameChange e.name p.name st else st)
              with characters := some (pre ++ p :: post) })
    ∧ (∀ st : OrchState,
        updateSpecificLocation ec (some (pre ++ e :: post)) st
          = { (if e.name ≠ p.name then propagateLocationNameChange e.name p.name st else st)
              with locations := some (pre ++ p :: post) }) := by
  obtain ⟨act, tn, ne⟩ := ec
  simp only at hact htgt hp
  subst hact
  subst htgt
  subst hp
  have hne : e.name ≠ "" := name_ne_empty_of_lower_eq ht he
  have happly : applyEntityChange ⟨.modify, some t, some p⟩ (pre ++ e :: post)
      = ⟨pre ++ p :: post,
          if e.name ≠ p.name then some (e.name, p.name) else none, true⟩ := by
    simp only [applyEntityChange]
    rw [if_neg ht, entityModifyLoop_append he hpre]
    by_cases hnp : e.name ≠ p.name
    · rw [if_pos ⟨hne, hnp⟩, if_pos hnp]
    · rw [if_neg (fun hand => hnp hand.2), if_neg hnp]
  refine ⟨by rw [happly], by rw [happly], by rw [happly], ?_, ?_⟩
  · intro st
    unfold updateSpecificCharacter
    rw [Option.getD_some, happly]
    by_cases hnp : e.name ≠ p.name
    · rw [if_pos hnp, if_pos hnp]
    · rw [if_neg hnp, if_neg hnp]
  · intro st
    unfold updateSpecificLocation
    rw [Option.getD_some, happly]
    by_cases hnp : e.name ≠ p.name
    · rw [if_pos hnp, if_pos hnp]
    · rw [if_neg hnp, if_neg hnp]

/-- Witness for C5: the spec's case-insensitive identity example — a lookup
for "elena cross" resolves and fully replaces the entity named "Elena Cross",
yielding the rename event ("Elena Cross", "Mara Cross"). -/
theorem entity_modify_replacement_witness :
    (applyEntityChange ⟨.modify, some "elena cross", some ⟨"Mara Cross", "h"⟩⟩
        [⟨"Elena Cross", "h"⟩, ⟨"Bob", "b"⟩]).collection
      = [⟨"Mara Cross", "h"⟩, ⟨"Bob", "b"⟩]
    ∧ (applyEntityChange ⟨.modify, some "elena cross", some ⟨"Mara Cross", "h"⟩⟩
        [⟨"Elena Cross", "h"⟩, ⟨"Bob", "b"⟩]).renameEvent
      = some ("Elena Cross", "Mara Cross") := by
  have h := entity_modify_replacement "elena cross" ⟨"Mara Cross", "h"⟩ ⟨"Elena Cross", "h"⟩
    [] [⟨"Bob", "b"⟩] ⟨.modify, some "elena cross", some ⟨"Mara Cross", "h"⟩⟩
    rfl rfl rfl (by decide) (by decide) (by decide)
  simp only [List.nil_append] at h
  refine ⟨h.1, ?_⟩
  rw [h.2.2.1]
  decide

lemma applySceneChange_add_eq {sc : SceneChange} {p : Scene} (hact : sc.action = .add)
    (hp : sc.new_scene = some p) (scenes : List Scene) :
    applySceneChange sc scenes = ⟨scenes ++ [p], none, true⟩ := by
  obtain ⟨act, tn, ia, ni, nss, ns⟩ := sc
  simp only at hact hp
  subst hact
  subst hp
  rfl

/-- C8: the scenes authorization gate and transient scratch state.  The
`allow_scene_increase` flag is true exactly when the lowercased feedback
contains one of the fixed trigger phrases; the flag and the scenes feedback
scratch field are both present on the state handed to the patch step
(`scenesPrePatch`) and both absent from the state `update_component` returns;
and a count-changing `add` proposal is applied even when the flag is false —
the gate is advisory, not enforced. -/
theorem scene_gate_and_transients (fb : String) (inp : ProposerInputs) (st : OrchState) :
    (sceneAllowIncrease fb = true ↔
      ∃ kw ∈ increaseKeywords, pyContains (pyLower fb) kw = true)
    ∧ (scenesPrePatch fb st).allow_scene_increase = some (sceneAllowIncrease fb)
    ∧ (scenesPrePatch fb st).scenes_feedback = some fb
    ∧ (updateComponent "scenes" fb inp st).allow_scene_increase = none
    ∧ (updateComponent "scenes" fb inp st).scenes_feedback = none
    ∧ (sceneAllowIncrease fb = false → ∀ p : Scene, inp.sceneChange.action = .add →
        inp.sceneChange.new_scene = some p →
        (updateComponent "scenes" fb inp st).scenes = some (st.scenes.getD [] ++ [p])) := by
  refine ⟨by simp [sceneAllowIncrease, List.any_eq_true], rfl, by simp [scenesPrePatch, setFeedback],
    ?_, ?_, ?_⟩
  · rw [updateComponent_scenes_eq]
  · rw [updateComponent_scenes_eq]
    simp [clearFeedback]
  · intro _ p hact hp
    rw [updateComponent_scenes_eq]
    unfold updateSpecificScene
    rw [applySceneChange_add_eq hact hp]
    simp [clearFeedback]

/-- Witness for C8: feedback "make scene 2 moodier" matches no trigger phrase,
yet an `add` proposal still grows the scene list of the sample state. -/
theorem scene_gate_and_transients_witness :
    (updateComponent "scenes" "make scene 2 moodier"
        { baseInputs with sceneChange := ⟨.add, none, none, none, none, some (mkScene 9)⟩ }
        baseState).scenes
      = some (baseState.scenes.getD [] ++ [mkScene 9]) :=
  (scene_gate_and_transients "make scene 2 moodier"
      { baseInputs with sceneChange := ⟨.add, none, none, none, none, some (mkScene 9)⟩ }
      baseState).2.2.2.2.2 (by decide) (mkScene 9) rfl rfl

/-- The nine document fields of the state (title, genre, tone, draft,
characters, locations, dialogue lines, scenes, visual lookbook) agree. -/
def docEq (st st' : OrchState) : Prop :=
  st'.title = st.title ∧ st'.genre = st.genre ∧ st'.tone = st.tone
    ∧ st'.draft = st.draft ∧ st'.characters = st.characters
    ∧ st'.locations = st.locations ∧ st'.dialogue_scenes = st.dialogue_scenes
    ∧ st'.scenes = st.scenes ∧ st'.visual_lookbook = st.visual_lookbook

instance (st st' : OrchState) : Decidable (docEq st st') := by
  unfold docEq
  infer_instance

lemma updateComponent_locations_noop {inp : ProposerInputs} {st : OrchState} {fb : String}
    {L : List Entity} (hL : st.locations = some L)
    (happ : applyEntityChange inp.locationChange L = ⟨L, none, false⟩) :
    docEq st (updateComponent "locations" fb inp st) := by
  rw [updateComponent_locations_eq]
  unfold updateSpecificLocation
  rw [hL, Option.getD_some, happ]
  simp [docEq, clearFeedback, setFeedback, hL]

lemma updateComponent_characters_noop {inp : ProposerInputs} {st : OrchState} {fb : String}
    {C : List Entity} (hC : st.characters = some C)
    (happ : applyEntityChange inp.characterChange C = ⟨C, none, false⟩) :
    docEq st (updateComponent "characters" fb inp st) := by
  rw [updateComponent_characters_eq]
  unfold updateSpecificCharacter
  rw [hC, Option.getD_some, happ]
  simp [docEq, clearFeedback, setFeedback, hC]

lemma updateComponent_dialogue_noop {inp : ProposerInputs} {st : OrchState} {fb : String}
    {DL : List DialogueLine} (hD : st.dialogue_scenes = some DL)
    (happ : applyDialogueChange inp.dialogueChange DL = ⟨DL, none, false⟩) :
    docEq st (updateComponent "dialogue" fb inp st) := by
  rw [updateComponent_dialogue_eq]
  unfold updateSpecificDialogue
  rw [hD, Option.getD_some, happ]
  simp [docEq, clearFeedback, setFeedback, hD]

lemma updateComponent_scenes_noop {inp : ProposerInputs} {st : OrchState} {fb : String}
    {SS : List Scene} (hS : st.scenes = some SS)
    (happ : applySceneChange inp.sceneChange SS = ⟨SS, none, false⟩) :
    docEq st (updateComponent "scenes" fb inp st) := by
  rw [updateComponent_scenes_eq]
  unfold updateSpecificScene
  rw [hS, Option.getD_some, happ]
  simp [docEq, clearFeedback, scenesPrePatch, setFeedback, hS]

lemma applyEntityChange_modify_no_payload {ec : EntityChange} {l : List Entity}
    (hact : ec.action = .modify) (hp : ec.new_entity = none) :
    applyEntityChange ec l = ⟨l, none, false⟩ := by
  obtain ⟨act, tn, ne⟩ := ec
  simp only at hact hp
  subst hact
  subst hp
  cases tn <;> rfl

lemma applyDialogueChange_modify_no_line {dc : DialogueChange} {l : List DialogueLine}
    (hact : dc.action = .modify)
    (hml : dc.modified_line = none ∨ dc.modified_line = some "") :
    applyDialogueChange dc l = ⟨l, none, false⟩ := by
  obtain ⟨act, idn, nd, ml, sn⟩ := dc
  simp only at hact hml
  subst hact
  rcases hml with h | h <;> subst h
  · cases idn <;> rfl
  · cases idn with
    | none => rfl
    | some id =>
      simp [applyDialogueChange]

lemma applySceneChange_modify_no_payload {sc : SceneChange} {l : List Scene}
    (hact : sc.action = .modify) (hns : sc.new_scene = none) :
    applySceneChange sc l = ⟨l, none, false⟩ := by
  obtain ⟨act, tn, ia, ni, nss, ns⟩ := sc
  simp only at hact hns
  subst hact
  subst hns
  cases tn <;> rfl

/-- C6: no-op idempotence on unmatched targets.  For each of the four
collections, a `modify`/`remove` proposal whose target matches nothing
(case-insensitively; missing, empty or zero identifiers match nothing), and a
`modify` whose required payload is missing, leave the written-back collection
equal to the original, surface a warning (`applied = false`), and change no
document field of the state. -/
theorem noop_idempotence (st : OrchState) (fb : String)
    (L C : List Entity) (DL : List DialogueLine) (SS : List Scene)
    (hL : st.locations = some L) (hC : st.characters = some C)
    (hD : st.dialogue_scenes = some DL) (hS : st.scenes = some SS) :
    (∀ inp : ProposerInputs, inp.locationChange.action ≠ .add →
        (∀ t, inp.locationChange.target_name = some t → t ≠ "" →
          ∀ x ∈ L, pyLower x.name ≠ pyLower t) →
        docEq st (updateComponent "locations" fb inp st)
          ∧ (applyEntityChange inp.locationChange L).applied = false)
    ∧ (∀ inp : ProposerInputs, inp.characterChange.action ≠ .add →
        (∀ t, inp.characterChange.target_name = some t → t ≠ "" →
          ∀ x ∈ C, pyLower x.name ≠ pyLower t) →
        docEq st (updateComponent "characters" fb inp st)
          ∧ (applyEntityChange inp.characterChange C).applied = false)
    ∧ (∀ inp : ProposerInputs, inp.dialogueChange.action ≠ .add →
        (∀ id, inp.dialogueChange.identification = some id →
          dialogueTargetResolves id DL = false) →
        docEq st (updateComponent "dialogue" fb inp st)
          ∧ (applyDialogueChange inp.dialogueChange DL).applied = false)
    ∧ (∀ inp : ProposerInputs,
        (inp.sceneChange.action = .modify ∨ inp.sceneChange.action = .remove) →
        (∀ n, inp.sceneChange.target_scene_number = some n → n ≠ 0 →
          ∀ s ∈ SS, s.scene_number ≠ n) →
        docEq st (updateComponent "scenes" fb inp st)
          ∧ (applySceneChange inp.sceneChange SS).applied = false)
    ∧ (∀ inp : ProposerInputs, inp.locationChange.action = .modify →
        inp.locationChange.new_entity = none →
        docEq st (updateComponent "locations" fb inp st))
    ∧ (∀ inp : ProposerInputs, inp.characterChange.action = .modify →
        inp.characterChange.new_entity = none →
        docEq st (updateComponent "characters" fb inp st))
    ∧ (∀ inp : ProposerInputs, inp.dialogueChange.action = .modify →
        (inp.dialogueChange.modified_line = none ∨ inp.dialogueChange.modified_line = some "") →
        docEq st (updateComponent "dialogue" fb inp st))
    ∧ (∀ inp : ProposerInputs, inp.sceneChange.action = .modify →
        inp.sceneChange.new_scene = none →
        docEq st (updateComponent "scenes" fb inp st)) := by
  refine ⟨?_, ?_, ?_, ?_, ?_, ?_, ?_, ?_⟩
  · intro inp h1 h2
    have happ := applyEntityChange_noop h1 h2
    exact ⟨updateComponent_locations_noop hL happ, by rw [happ]⟩
  · intro inp h1 h2
    have happ := applyEntityChange_noop h1 h2
    exact ⟨updateComponent_characters_noop hC happ, by rw [happ]⟩
  · intro inp h1 h2
    have happ := applyDialogueChange_noop h1 h2
    exact ⟨updateComponent_dialogue_noop hD happ, by rw [happ]⟩
  · intro inp h1 h2
    have happ := applySceneChange_noop h1 h2
    exact ⟨updateComponent_scenes_noop hS happ, by rw [happ]⟩
  · intro inp h1 h2
    exact updateComponent_locations_noop hL (applyEntityChange_modify_no_payload h1 h2)
  · intro inp h1 h2
    exact updateComponent_characters_noop hC (applyEntityChange_modify_no_payload h1 h2)
  · intro inp h1 h2
    exact updateComponent_dialogue_noop hD (applyDialogueChange_modify_no_line h1 h2)
  · intro inp h1 h2
    exact updateComponent_scenes_noop hS (applySceneChange_modify_no_payload h1 h2)

/-- Witness for C6: a `modify` targeting the absent location "Library" leaves
every document field of the sample state unchanged. -/
theorem noop_idempotence_witness :
    docEq baseState (updateComponent "locations" "change the library"
      { baseInputs with locationChange := ⟨.modify, some "Library", some ⟨"Park", "p"⟩⟩ }
      baseState) :=
  ((noop_idempotence baseState "change the library"
      [⟨"Cafe", "desc"⟩] [⟨"Elena", "hero"⟩] [⟨"Elena", 1, "hi"⟩] [mkScene 1, mkScene 2]
      rfl rfl rfl rfl).1
    { baseInputs with locationChange := ⟨.modify, some "Library", some ⟨"Park", "p"⟩⟩ }
    (by decide) (by decide)).1

lemma propagateLocationNameChange_fields (o n : String) (st : OrchState) :
    (propagateLocationNameChange o n st).title = st.title
    ∧ (propagateLocationNameChange o n st).genre = st.genre
    ∧ (propagateLocationNameChange o n st).tone = st.tone
    ∧ (propagateLocationNameChange o n st).characters = st.characters
    ∧ (propagateLocationNameChange o n st).locations = st.locations
    ∧ (propagateLocationNameChange o n st).dialogue_scenes = st.dialogue_scenes
    ∧ (propagateLocationNameChange o n st).visual_lookbook = st.visual_lookbook := by
  refine ⟨?_, ?_, ?_, ?_, ?_, ?_, ?_⟩ <;>
    (unfold propagateLocationNameChange
     split <;> (try split_ifs) <;> (try dsimp only) <;>
       (try split) <;> (try split_ifs) <;> rfl)

lemma charDialogueStage_fields (o n : String) (st : OrchState) :
    (propagateCharDialogueStage o n st).title = st.title
    ∧ (propagateCharDialogueStage o n st).genre = st.genre
    ∧ (propagateCharDialogueStage o n st).tone = st.tone
    ∧ (propagateCharDialogueStage o n st).draft = st.draft
    ∧ (propagateCharDialogueStage o n st).characters = st.characters
    ∧ (propagateCharDialogueStage o n st).locations = st.locations
    ∧ (propagateCharDialogueStage o n st).scenes = st.scenes
    ∧ (propagateCharDialogueStage o n st).visual_lookbook = st.visual_lookbook := by
  unfold propagateCharDialogueStage
  cases h : st.dialogue_scenes with
  | none => exact ⟨rfl, rfl, rfl, rfl, rfl, rfl, rfl, rfl⟩
  | some ds =>
    dsimp only
    split_ifs <;> exact ⟨rfl, rfl, rfl, rfl, rfl, rfl, rfl, rfl⟩

lemma charScenesStage_fields (o n : String) (st : OrchState) :
    (propagateCharScenesStage o n st).title = st.title
    ∧ (propagateCharScenesStage o n st).genre = st.genre
    ∧ (propagateCharScenesStage o n st).tone = st.tone
    ∧ (propagateCharScenesStage o n st).draft = st.draft
    ∧ (propagateCharScenesStage o n st).characters = st.characters
    ∧ (propagateCharScenesStage o n st).locations = st.locations
    ∧ (propagateCharScenesStage o n st).dialogue_scenes = st.dialogue_scenes
    ∧ (propagateCharScenesStage o n st).visual_lookbook = st.visual_lookbook := by
  unfold propagateCharScenesStage
  cases h : st.scenes with
  | none => exact ⟨rfl, rfl, rfl, rfl, rfl, rfl, rfl, rfl⟩
  | some ss =>
    dsimp only
    split_ifs <;> exact ⟨rfl, rfl, rfl, rfl, rfl, rfl, rfl, rfl⟩

lemma charDraftStage_fields (o n : String) (st : OrchState) :
    (propagateCharDraftStage o n st).title = st.title
    ∧ (propagateCharDraftStage o n st).genre = st.genre
    ∧ (propagateCharDraftStage o n st).tone = st.tone
    ∧ (propagateCharDraftStage o n st).characters = st.characters
    ∧ (propagateCharDraftStage o n st).locations = st.locations
    ∧ (propagateCharDraftStage o n st).dialogue_scenes = st.dialogue_scenes
    ∧ (propagateCharDraftStage o n st).scenes = st.scenes
    ∧ (propagateCharDraftStage o n st).visual_lookbook = st.visual_lookbook := by
  unfold propagateCharDraftStage
  cases h : st.draft with
  | none => exact ⟨rfl, rfl, rfl, rfl, rfl, rfl, rfl, rfl⟩
  | some d =>
    dsimp only
    split_ifs <;> exact ⟨rfl, rfl, rfl, rfl, rfl, rfl, rfl, rfl⟩

lemma propagateCharacterNameChange_fields (o n : String) (st : OrchState) :
    (propagateCharacterNameChange o n st).title = st.title
    ∧ (propagateCharacterNameChange o n st).genre = st.genre
    ∧ (propagateCharacterNameChange o n st).tone = st.tone
    ∧ (propagateCharacterNameChange o n st).characters = st.characters
    ∧ (propagateCharacterNameChange o n st).locations = st.locations
    ∧ (propagateCharacterNameChange o n st).visual_lookbook = st.visual_lookbook := by
  have hq := charDialogueStage_fields o n st
  have hs := charScenesStage_fields o n (propagateCharDialogueStage o n st)
  have hd := charDraftStage_fields o n
    (propagateCharScenesStage o n (propagateCharDialogueStage o n st))
  unfold propagateCharacterNameChange
  exact ⟨hd.1.trans (hs.1.trans hq.1),
    hd.2.1.trans (hs.2.1.trans hq.2.1),
    hd.2.2.1.trans (hs.2.2.1.trans hq.2.2.1),
    hd.2.2.2.1.trans (hs.2.2.2.2.1.trans hq.2.2.2.2.1),
    hd.2.2.2.2.1.trans (hs.2.2.2.2.2.1.trans hq.2.2.2.2.2.1),
    hd.2.2.2.2.2.2.2.trans (hs.2.2.2.2.2.2.2.trans hq.2.2.2.2.2.2.2)⟩

/-- The scalar fields (`title`, `genre`, `tone`) agree. -/
def coreScalarsEq (st st' : OrchState) : Prop :=
  st'.title = st.title ∧ st'.genre = st.genre ∧ st'.tone = st.tone

/-- Every top-level document field other than the targeted component agrees. -/
def nonTargetEq (c : String) (st st' : OrchState) : Prop :=
  (c ≠ "draft" → st'.draft = st.draft)
  ∧ (c ≠ "characters" → st'.characters = st.characters)
  ∧ (c ≠ "locations" → st'.locations = st.locations)
  ∧ (c ≠ "dialogue" → st'.dialogue_scenes = st.dialogue_scenes)
  ∧ (c ≠ "scenes" → st'.scenes = st.scenes)
  ∧ (c ≠ "visual_lookbook" → st'.visual_lookbook = st.visual_lookbook)

/-- The rename event a `update_component` run produces: only the locations and
characters paths can rename (a `modify` whose payload changes the name). -/
def renameEventOf (c : String) (inp : ProposerInputs) (st : OrchState) :
    Option (String × String) :=
  if c = "locations" then
    (applyEntityChange inp.locationChange (st.locations.getD [])).renameEvent
  else if c = "characters" then
    (applyEntityChange inp.characterChange (st.characters.getD [])).renameEvent
  else none

/-- Proposer inputs that rename character "Elena" to "Mara". -/
def renameInputs : ProposerInputs :=
  { baseInputs with characterChange := ⟨.modify, some "elena", some ⟨"Mara", "hero"⟩⟩ }

/-- C2 counterexample: a characters `modify` that renames "Elena" to "Mara"
also rewrites the `draft` (a non-targeted top-level field) through rename
propagation, so the revision is not frame-preserving as claimed. -/
theorem targeted_preservation_counterexample :
    (updateComponent "characters" "rename elena to mara" renameInputs baseState).draft
      = some "Mara met Mara"
    ∧ (updateComponent "characters" "rename elena to mara" renameInputs baseState).draft
      ≠ baseState.draft := by
  exact ⟨by decide, by decide⟩

/-- C2 (amended): `title`, `genre` and `tone` are preserved by every
`update_component` run regardless of target; and whenever the run produces no
rename event — always, for the draft, dialogue, scenes and visual-lookbook
targets, and for characters/locations whenever the modify does not change the
entity's name — every top-level document field other than the targeted
component is structurally identical before and after.  (A rename-producing
modify additionally rewrites the propagation targets: dialogue lines, scenes
and draft for a character rename; scenes and draft for a location rename.) -/
theorem targeted_preservation (c fb : String) (inp : ProposerInputs) (st : OrchState) :
    coreScalarsEq st (updateComponent c fb inp st)
    ∧ (renameEventOf c inp st = none → nonTargetEq c st (updateComponent c fb inp st)) := by
  by_cases hm : c ∈ ["draft", "characters", "dialogue", "locations", "visual_lookbook", "scenes"]
  case neg =>
    unfold updateComponent
    rw [if_pos hm]
    exact ⟨⟨rfl, rfl, rfl⟩, fun _ =>
      ⟨fun _ => rfl, fun _ => rfl, fun _ => rfl, fun _ => rfl, fun _ => rfl, fun _ => rfl⟩⟩
  case pos =>
    fin_cases hm
    · -- draft
      rw [updateComponent_draft_eq]
      cases hx : inp.draftResult with
      | none =>
        refine ⟨?_, fun _ => ?_⟩
        · simp [coreScalarsEq, clearFeedback, setFeedback]
        · refine ⟨fun h => absurd rfl h, fun _ => ?_, fun _ => ?_, fun _ => ?_,
            fun _ => ?_, fun _ => ?_⟩ <;> simp [clearFeedback, setFeedback]
      | some d =>
        refine ⟨?_, fun _ => ?_⟩
        · simp [coreScalarsEq, clearFeedback, setFeedback]
        · refine ⟨fun h => absurd rfl h, fun _ => ?_, fun _ => ?_, fun _ => ?_,
            fun _ => ?_, fun _ => ?_⟩ <;> simp [clearFeedback, setFeedback]
    · -- characters
      rw [updateComponent_characters_eq]
      unfold updateSpecificCharacter
      dsimp only
      cases hev : (applyEntityChange inp.characterChange (st.characters.getD [])).renameEvent with
      | none =>
        refine ⟨?_, fun _ => ?_⟩
        · simp [coreScalarsEq, clearFeedback, setFeedback]
        · refine ⟨fun _ => ?_, fun h => absurd rfl h, fun _ => ?_, fun _ => ?_,
            fun _ => ?_, fun _ => ?_⟩ <;> simp [clearFeedback, setFeedback]
      | some pr =>
        have hf := propagateCharacterNameChange_fields pr.1 pr.2 (setFeedback "characters" fb st)
        simp [setFeedback] at hf
        refine ⟨?_, fun hrn => ?_⟩
        · refine ⟨?_, ?_, ?_⟩ <;>
            simp [coreScalarsEq, clearFeedback, setFeedback, hf.1, hf.2.1, hf.2.2.1]
        · exfalso
          simp only [renameEventOf] at hrn
          norm_num at hrn
          rw [hev] at hrn
          exact Option.noConfusion hrn
    · -- dialogue
      rw [updateComponent_dialogue_eq]
      unfold updateSpecificDialogue
      refine ⟨?_, fun _ => ?_⟩
      · simp [coreScalarsEq, clearFeedback, setFeedback]
      · refine ⟨fun _ => ?_, fun _ => ?_, fun _ => ?_, fun h => absurd rfl h,
          fun _ => ?_, fun _ => ?_⟩ <;> simp [clearFeedback, setFeedback]
    · -- locations
      rw [updateComponent_locations_eq]
      unfold updateSpecificLocation
      dsimp only
      cases hev : (applyEntityChange inp.locationChange (st.locations.getD [])).renameEvent with
      | none =>
        refine ⟨?_, fun _ => ?_⟩
        · simp [coreScalarsEq, clearFeedback, setFeedback]
        · refine ⟨fun _ => ?_, fun _ => ?_, fun h => absurd rfl h, fun _ => ?_,
            fun _ => ?_, fun _ => ?_⟩ <;> simp [clearFeedback, setFeedback]
      | some pr =>
        have hf := propagateLocationNameChange_fields pr.1 pr.2 (setFeedback "locations" fb st)
        simp [setFeedback] at hf
        refine ⟨?_, fun hrn => ?_⟩
        · refine ⟨?_, ?_, ?_⟩ <;>
            simp [coreScalarsEq, clearFeedback, setFeedback, hf.1, hf.2.1, hf.2.2.1]
        · exfalso
          simp only [renameEventOf] at hrn
          norm_num at hrn
          rw [hev] at hrn
          exact Option.noConfusion hrn
    · -- visual_lookbook
      rw [updateComponent_visual_eq]
      cases hx : inp.lookbookResult with
      | none =>
        refine ⟨?_, fun _ => ?_⟩
        · simp [coreScalarsEq, clearFeedback, setFeedback]
        · refine ⟨fun _ => ?_, fun _ => ?_, fun _ => ?_, fun _ => ?_,
            fun _ => ?_, fun h => absurd rfl h⟩ <;> simp [clearFeedback, setFeedback]
      | some v =>
        refine ⟨?_, fun _ => ?_⟩
        · simp [coreScalarsEq, clearFeedback, setFeedback]
        · refine ⟨fun _ => ?_, fun _ => ?_, fun _ => ?_, fun _ => ?_,
            fun _ => ?_, fun h => absurd rfl h⟩ <;> simp [clearFeedback, setFeedback]
    · -- scenes
      rw [updateComponent_scenes_eq]
      unfold updateSpecificScene
      refine ⟨?_, fun _ => ?_⟩
      · simp [coreScalarsEq, clearFeedback, scenesPrePatch, setFeedback]
      · refine ⟨fun _ => ?_, fun _ => ?_, fun _ => ?_, fun _ => ?_,
          fun h => absurd rfl h, fun _ => ?_⟩ <;>
          simp [clearFeedback, scenesPrePatch, setFeedback]

/-- Witness for C2 at a concrete input: a dialogue-targeted run on the sample
state preserves every other top-level document field. -/
theorem targeted_preservation_witness :
    nonTargetEq "dialogue" baseState
      (updateComponent "dialogue" "tweak the line" baseInputs baseState) :=
  (targeted_preservation "dialogue" "tweak the line" baseInputs baseState).2 (by decide)

lemma propagateSceneUpdate_eq {old new : String} (hold : old ≠ "") (sc : Scene) :
    propagateSceneUpdate old new sc =
      { sc with
        dialogue_lines := sc.dialogue_lines.map (renameDialogueLine old new),
        subject_action := charProseRewrite old new sc.subject_action,
        environmental_context := charProseRewrite old new sc.environmental_context } := by
  obtain ⟨n, ec, sa, sh, ca, cm, cp, dls⟩ := sc
  unfold propagateSceneUpdate
  dsimp only
  by_cases h1 : dls = [] <;>
    by_cases h2 : sa = "" <;>
      by_cases h3 : ec = "" <;>
        simp [h1, h2, h3, charProseRewrite_empty hold] <;>
          (try (split_ifs <;> simp_all [Scene.mk.injEq])) <;>
          (try exact fun h => h.symm)



lemma charDialogueStage_dialogue (o n : String) (st : OrchState) :
    (propagateCharDialogueStage o n st).dialogue_scenes
      = st.dialogue_scenes.map (List.map (renameDialogueLine o n)) := by
  unfold propagateCharDialogueStage
  cases h : st.dialogue_scenes with
  | none => simp [h]
  | some ds =>
    dsimp only
    by_cases he : ds = [] <;> simp [he, h]

lemma charScenesStage_scenes (o n : String) (st : OrchState) :
    (propagateCharScenesStage o n st).scenes
      = st.scenes.map (List.map (propagateSceneUpdate o n)) := by
  unfold propagateCharScenesStage
  cases h : st.scenes with
  | none => simp [h]
  | some ss =>
    dsimp only
    by_cases he : ss = [] <;> simp [he, h]

lemma charDraftStage_draft {old new : String} (hold : old ≠ "") (st : OrchState) :
    (propagateCharDraftStage old new st).draft
      = st.draft.map (charProseRewrite old new) := by
  unfold propagateCharDraftStage
  cases h : st.draft with
  | none => simp [h]
  | some d =>
    dsimp only
    by_cases h1 : d = ""
    · subst h1
      simp [h, charProseRewrite_empty hold]
    · by_cases h2 : charProseRewrite old new d = d
      · simp [h1, h2, h]
      · simp [h1, h2, h]

lemma propagateCharacterNameChange_dialogue (o n : String) (st : OrchState) :
    (propagateCharacterNameChange o n st).dialogue_scenes
      = st.dialogue_scenes.map (List.map (renameDialogueLine o n)) := by
  unfold propagateCharacterNameChange
  rw [(charDraftStage_fields o n _).2.2.2.2.2.1,
    (charScenesStage_fields o n _).2.2.2.2.2.2.1,
    charDialogueStage_dialogue]

lemma propagateCharacterNameChange_scenes {old new : String} (hold : old ≠ "")
    (st : OrchState) :
    (propagateCharacterNameChange old new st).scenes
      = st.scenes.map (List.map (fun sc =>
          { sc with
            dialogue_lines := sc.dialogue_lines.map (renameDialogueLine old new),
            subject_action := charProseRewrite old new sc.subject_action,
            environmental_context := charProseRewrite old new sc.environmental_context })) := by
  have hfun : propagateSceneUpdate old new = fun sc =>
      { sc with
        dialogue_lines := sc.dialogue_lines.map (renameDialogueLine old new),
        subject_action := charProseRewrite old new sc.subject_action,
        environmental_context := charProseRewrite old new sc.environmental_context } :=
    funext (propagateSceneUpdate_eq hold)
  unfold propagateCharacterNameChange
  rw [(charDraftStage_fields old new _).2.2.2.2.2.2.1,
    charScenesStage_scenes,
    (charDialogueStage_fields old new _).2.2.2.2.2.2.1,
    hfun]

lemma propagateCharacterNameChange_draft {old new : String} (hold : old ≠ "")
    (st : OrchState) :
    (propagateCharacterNameChange old new st).draft
      = st.draft.map (charProseRewrite old new) := by
  unfold propagateCharacterNameChange
  rw [charDraftStage_draft hold,
    (charScenesStage_fields old new _).2.2.2.1,
    (charDialogueStage_fields old new _).2.2.2.1]

/-- C1 counterexample: the draft contains "Elena" twice; the code's
`str.replace` rewrites **both** occurrences ("Mara met Mara"), while the claim
says only the first occurrence is replaced, which would give "Mara met Elena". -/
theorem char_rename_first_occurrence_counterexample :
    (propagateCharacterNameChange "Elena" "Mara" baseState).draft = some "Mara met Mara"
    ∧ some "Mara met Mara" ≠ some "Mara met Elena" := by
  exact ⟨by decide, by decide⟩

/-- C1 (amended): after a character rename (non-empty old name; names whose
first-token computation would raise in Python are excluded), (a) every
dialogue attribution equal to the old name — top-level and scene-embedded — is
set to the new name, all occurrences; (b) each free-text field (scene
`subject_action`, scene `environmental_context`, and the draft) is rewritten
by `charProseRewrite`: if the full old name occurs, **every** occurrence of it
is replaced; otherwise, if the old name's first whitespace-delimited token
occurs (and differs from the full name), **every** occurrence of that token is
replaced with the new name's first token; the full-name branch preempts the
first-name branch and at most one branch runs per field.  Characters and title
are untouched. -/
theorem char_rename_propagation (old new : String) (st : OrchState)
    (hold : old ≠ "")
    (hto : pyContains old " " = true → pySplitWs old ≠ [])
    (htn : pyContains new " " = true → pySplitWs new ≠ []) :
    (propagateCharacterNameChange old new st).dialogue_scenes
        = st.dialogue_scenes.map (List.map (fun d =>
            if d.character_name = old then { d with character_name := new } else d))
    ∧ (propagateCharacterNameChange old new st).scenes
        = st.scenes.map (List.map (fun sc =>
            { sc with
              dialogue_lines := sc.dialogue_lines.map (fun d =>
                if d.character_name = old then { d with character_name := new } else d),
              subject_action := charProseRewrite old new sc.subject_action,
              environmental_context := charProseRewrite old new sc.environmental_context }))
    ∧ (propagateCharacterNameChange old new st).draft
        = st.draft.map (charProseRewrite old new)
    ∧ (propagateCharacterNameChange old new st).characters = st.characters
    ∧ (propagateCharacterNameChange old new st).title = st.title := by
  have hf := propagateCharacterNameChange_fields old new st
  exact ⟨propagateCharacterNameChange_dialogue old new st,
    propagateCharacterNameChange_scenes hold st,
    propagateCharacterNameChange_draft hold st,
    hf.2.2.2.1, hf.1⟩

/-- A state exercising rename propagation in all three targets. -/
def renameWitState : OrchState :=
  { baseState with
    draft := some "Elena Cross met Bob; Elena waved.",
    dialogue_scenes := some [⟨"Elena Cross", 1, "hi"⟩, ⟨"Bob", 1, "yo"⟩],
    scenes := some [⟨1, "A street", "Elena runs fast", "", "", "", "",
      [⟨"Elena Cross", 1, "go"⟩]⟩] }

/-- Witness for C1's amended theorem: renaming "Elena Cross" → "Mara Cross"
updates every matching dialogue attribution. -/
theorem char_rename_propagation_witness :
    (propagateCharacterNameChange "Elena Cross" "Mara Cross" renameWitState).dialogue_scenes
      = some [⟨"Mara Cross", 1, "hi"⟩, ⟨"Bob", 1, "yo"⟩] := by
  have h := (char_rename_propagation "Elena Cross" "Mara Cross" renameWitState
    (by decide) (by decide) (by decide)).1
  rw [h]
  decide
